import Mathlib

/-!
Subhashini front end (`frontend/src/App.jsx`): the capture-to-playback pipeline.

A shallow embedding of the stateful core of the `App` component: the hex
payload transcoder `hexToBase64`, the two submission functions
`translateAudio` / `translateVideo`, the recording functions
`startRecording` / `stopRecording` with the recorder's handlers, the two
buttons, and the render of the result panel.

JavaScript strings are sequences of UTF-16 code units, so a string is a
`List Nat` here; `js` turns a Lean literal into that representation.  An
asynchronous function is cut at its `await`: the part before and the part
after are separate functions, the second taking the way the awaited promise
settles, and `step` runs the component one event at a time.
-/

namespace Subhashini

/-! ## JavaScript strings -/

/-- A JavaScript string: its UTF-16 code units. -/
abbrev JSString := List Nat

/-- UTF-16 code units of one Unicode scalar value. -/
def utf16Units (c : Char) : List Nat :=
  if c.toNat < 0x10000 then [c.toNat]
  else [0xD800 + (c.toNat - 0x10000) / 0x400, 0xDC00 + (c.toNat - 0x10000) % 0x400]

/-- The JavaScript string written as the given literal. -/
def js (s : String) : JSString := s.toList.flatMap utf16Units

/-! ## `hexToBase64` (App.jsx lines 133-138) -/

/-- ECMAScript *LineTerminator* code units: the characters the regular
expression atom `.` (without the `s` flag) does not match. -/
def isLineTerminator (c : Nat) : Bool :=
  c == 0x0A || c == 0x0D || c == 0x2028 || c == 0x2029

/-- All matches of the global regular expression `/.{1,2}/g`, left to right:
at each position the greedy quantifier takes two code units when both are
matched by `.`, one when only the first is, and the search moves one position
forward when the code unit there is a line terminator. -/
def matchGroups : JSString → List JSString
  | [] => []
  | [a] => if isLineTerminator a then [] else [[a]]
  | a :: b :: rest =>
    if isLineTerminator a then matchGroups (b :: rest)
    else if isLineTerminator b then [a] :: matchGroups (b :: rest)
    else [a, b] :: matchGroups rest

/-- The call `hex.match(/.{1,2}/g)`: the array of matches, or `null` (here
`none`) when there is no match at all. -/
def regexMatch (hex : JSString) : Option (List JSString) :=
  match matchGroups hex with
  | [] => none
  | g :: gs => some (g :: gs)

/-- ECMAScript *StrWhiteSpaceChar*: what `parseInt` strips from the front of
its argument (white space and line terminators). -/
def isStrWhiteSpace (c : Nat) : Bool :=
  c == 0x09 || c == 0x0A || c == 0x0B || c == 0x0C || c == 0x0D || c == 0x20 ||
  c == 0xA0 || c == 0x1680 || (0x2000 ≤ c && c ≤ 0x200A) || c == 0x2028 ||
  c == 0x2029 || c == 0x202F || c == 0x205F || c == 0x3000 || c == 0xFEFF

/-- Value of a radix-16 digit, `none` for any other code unit. -/
def hexDigitValue (c : Nat) : Option Nat :=
  if 48 ≤ c ∧ c ≤ 57 then some (c - 48)
  else if 97 ≤ c ∧ c ≤ 102 then some (c - 87)
  else if 65 ≤ c ∧ c ≤ 70 then some (c - 55)
  else none

/-- The longest prefix of radix-16 digits, as digit values. -/
def takeHexDigits : JSString → List Nat
  | [] => []
  | c :: cs =>
    match hexDigitValue c with
    | some v => v :: takeHexDigits cs
    | none => []

/-- `parseInt` step 2: drop leading white space. -/
def trimLeadingWhiteSpace : JSString → JSString
  | [] => []
  | c :: cs => if isStrWhiteSpace c then trimLeadingWhiteSpace cs else c :: cs

/-- `parseInt` steps 3-4: the sign, and the string without a leading `+`/`-`. -/
def splitSign : JSString → Bool × JSString
  | 45 :: cs => (true, cs)
  | 43 :: cs => (false, cs)
  | cs => (false, cs)

/-- `parseInt` step for radix 16: drop a leading `0x` or `0X`. -/
def stripHexPrefix : JSString → JSString
  | 48 :: 120 :: cs => cs
  | 48 :: 88 :: cs => cs
  | cs => cs

/-- The call `parseInt(byte, 16)`; `none` is `NaN`.  (The result is the exact
integer, which is what ECMAScript returns below 2^53; the groups produced by
`regexMatch` have at most two digits.  `-0` is identified with `0`.) -/
def parseInt16 (s : JSString) : Option Int :=
  let (neg, rest) := splitSign (trimLeadingWhiteSpace s)
  match takeHexDigits (stripHexPrefix rest) with
  | [] => none
  | d :: ds =>
    let n : Nat := (d :: ds).foldl (fun acc v => 16 * acc + v) 0
    some (if neg then -(n : Int) else (n : Int))

/-- An element stored into a `Uint8Array`: `ToUint8`, i.e. `NaN` becomes `0`
and an integer is reduced modulo 256. -/
def toUint8 : Option Int → Nat
  | none => 0
  | some n => (n % 256).toNat

/-- The 64 characters of the base64 alphabet, by 6-bit value. -/
def b64Char (n : Nat) : Nat :=
  if n < 26 then 65 + n
  else if n < 52 then 97 + (n - 26)
  else if n < 62 then 48 + (n - 52)
  else if n = 62 then 43
  else 47

/-- Base64 (RFC 4648 section 4, with `=` padding) of a byte sequence. -/
def base64Encode : List Nat → JSString
  | [] => []
  | [a] => [b64Char (a / 4), b64Char (a % 4 * 16), 61, 61]
  | [a, b] => [b64Char (a / 4), b64Char (a % 4 * 16 + b / 16), b64Char (b % 16 * 4), 61]
  | a :: b :: c :: rest =>
    b64Char (a / 4) :: b64Char (a % 4 * 16 + b / 16) :: b64Char (b % 16 * 4 + c / 64) ::
      b64Char (c % 64) :: base64Encode rest

/-- The kind of a thrown error object. -/
inductive ErrorKind where
  | Error
  | TypeError
  | SyntaxError
  | DOMException
  deriving DecidableEq, Repr

/-- A thrown error object: its kind and its `message` property. -/
structure JSError where
  kind : ErrorKind
  message : JSString
  deriving DecidableEq, Repr

/-- The platform function `btoa`: throws `InvalidCharacterError` when a code
unit of its argument exceeds 255, otherwise the base64 of the code units
taken as bytes. -/
def btoa (binary : JSString) : Except JSError JSString :=
  if binary.all (fun c => c ≤ 255) then .ok (base64Encode binary)
  else .error ⟨.DOMException, js "Invalid character"⟩

/-- The message of the `TypeError` raised by reading `.map` of `null`
(wording of V8; the program never inspects it). -/
def nullMapMessage : JSString := js "Cannot read properties of null (reading 'map')"

/-- The byte array `new Uint8Array(groups.map(byte => parseInt(byte, 16)))`. -/
def groupsToBytes (groups : List JSString) : List Nat :=
  groups.map fun byte => toUint8 (parseInt16 byte)

/-- The function `hexToBase64` applied to a string:
`hex.match(/.{1,2}/g)` (calling `.map` on its `null` result throws), each
group through `parseInt(_, 16)` into a `Uint8Array`, the bytes appended to
`binary` with `String.fromCharCode`, and `btoa(binary)`. -/
def hexToBase64 (hex : JSString) : Except JSError JSString :=
  match regexMatch hex with
  | none => .error ⟨.TypeError, nullMapMessage⟩
  | some groups =>
    let bytes := groupsToBytes groups
    let binary : JSString := bytes.foldl (fun acc byte => acc ++ [byte]) []
    btoa binary

/-! ### The reading of a hex payload stated by the specification -/

/-- The characters `0-9`, `a-f`, `A-F`. -/
def isHexDigit (c : Nat) : Bool :=
  (48 ≤ c && c ≤ 57) || (97 ≤ c && c ≤ 102) || (65 ≤ c && c ≤ 70)

/-- The specification's byte number `i` of a hex string `h`:
`16 * value(h[2i]) + value(h[2i+1])`. -/
def hexByteAt (h : JSString) (i : Nat) : Nat :=
  16 * (hexDigitValue (h.getD (2 * i) 0)).getD 0 + (hexDigitValue (h.getD (2 * i + 1) 0)).getD 0

/-- The specification's byte sequence of an even-length hex string. -/
def hexBytes (h : JSString) : List Nat :=
  (List.range (h.length / 2)).map (hexByteAt h)

/-- Lower-case hex digit of a value below 16. -/
def hexDigitChar (v : Nat) : Nat := if v < 10 then 48 + v else 87 + v

/-- Bytes written as lower-case hex, two digits each. -/
def bytesToHex : List Nat → JSString
  | [] => []
  | b :: bs => hexDigitChar (b / 16) :: hexDigitChar (b % 16) :: bytesToHex bs

/-- ASCII lower-casing of one code unit. -/
def toLowerUnit (c : Nat) : Nat := if 65 ≤ c ∧ c ≤ 90 then c + 32 else c

/-- The 6-bit value of a base64 alphabet character. -/
def b64Value (c : Nat) : Option Nat :=
  if 65 ≤ c ∧ c ≤ 90 then some (c - 65)
  else if 97 ≤ c ∧ c ≤ 122 then some (c - 71)
  else if 48 ≤ c ∧ c ≤ 57 then some (c + 4)
  else if c = 43 then some 62
  else if c = 47 then some 63
  else none

/-- Base64 decoding (RFC 4648 section 4) of a padded text: four characters
give three bytes; a final group ending in `=` or `==` gives two or one. -/
def base64Decode : JSString → Option (List Nat)
  | [] => some []
  | a :: b :: c :: d :: rest =>
    if c = 61 ∧ d = 61 ∧ rest = [] then
      match b64Value a, b64Value b with
      | some x, some y => some [x * 4 + y / 16]
      | _, _ => none
    else if d = 61 ∧ rest = [] then
      match b64Value a, b64Value b, b64Value c with
      | some x, some y, some z => some [x * 4 + y / 16, y % 16 * 16 + z / 4]
      | _, _, _ => none
    else
      match b64Value a, b64Value b, b64Value c, b64Value d, base64Decode rest with
      | some x, some y, some z, some w, some tl =>
        some ((x * 4 + y / 16) :: (y % 16 * 16 + z / 4) :: (z % 4 * 64 + w) :: tl)
      | _, _, _, _, _ => none
  | _ => none

/-- Consecutive two-character groups of a string, the last one of a single
character when the length is odd. -/
def pairGroups : JSString → List JSString
  | [] => []
  | [a] => [[a]]
  | a :: b :: rest => [a, b] :: pairGroups rest

/-- The byte a group of one or two characters yields: `16 * hi + lo` for two
hex digits; the digit's value for a hex digit alone or followed by another
character; the value of the second character when it is a hex digit and the
first is white space or `+`; its negative modulo 256 when the first is `-`;
and `0` in every other case. -/
def lenientGroupByte : JSString → Nat
  | [a] => (hexDigitValue a).getD 0
  | [a, b] =>
    match hexDigitValue a, hexDigitValue b with
    | some x, some y => 16 * x + y
    | some x, none => x
    | none, some y =>
      if isStrWhiteSpace a || a == 43 then y
      else if a == 45 then (256 - y) % 256
      else 0
    | none, none => 0
  | _ => 0

/-! ## Values parsed from a response body -/

mutual
/-- A value produced by `response.json()`.  A number is kept as the two
things the program can observe of it: whether it is non-zero (its
truthiness) and its string conversion. -/
inductive JSON where
  | null
  | bool (b : Bool)
  | num (nonzero : Bool) (text : JSString)
  | str (s : JSString)
  | arr (items : JSONItems)
  | obj (props : JSONProps)
/-- The elements of a parsed array. -/
inductive JSONItems where
  | nil
  | cons (head : JSON) (tail : JSONItems)
/-- The own properties of a parsed object, each key once. -/
inductive JSONProps where
  | nil
  | cons (key : JSString) (value : JSON) (tail : JSONProps)
end

/-- Property lookup in a parsed object; `none` is `undefined`. -/
def JSONProps.get (key : JSString) : JSONProps → Option JSON
  | .nil => none
  | .cons k v tail => if k = key then some v else tail.get key

/-- The message of the `TypeError` raised when an object has no usable
`toString` or `valueOf` (wording of V8). -/
def toPrimitiveMessage : JSString := js "Cannot convert object to primitive value"

/-- ECMAScript `ToString` of a parsed object: an own property `toString`
(never callable in a parsed value) shadows `Object.prototype.toString`, and
then neither it nor `valueOf` yields a primitive, so the conversion throws;
otherwise the result is `[object Object]`. -/
def objectToJSString (props : JSONProps) : Except JSError JSString :=
  match props.get (js "toString") with
  | some _ => .error ⟨.TypeError, toPrimitiveMessage⟩
  | none => .ok (js "[object Object]")

mutual
/-- ECMAScript `ToString` of a parsed value. -/
def JSON.toJSString : JSON → Except JSError JSString
  | .null => .ok (js "null")
  | .bool true => .ok (js "true")
  | .bool false => .ok (js "false")
  | .num _ text => .ok text
  | .str s => .ok s
  | .arr items => items.join
  | .obj props => objectToJSString props
/-- The call `Array.prototype.join` with the default separator `,`. -/
def JSONItems.join : JSONItems → Except JSError JSString
  | .nil => .ok []
  | .cons x .nil => x.joinItem
  | .cons x (.cons y rest) =>
    match x.joinItem, (JSONItems.cons y rest).join with
    | .ok a, .ok b => .ok (a ++ 44 :: b)
    | .error e, _ => .error e
    | .ok _, .error e => .error e
/-- One element inside `join`: `null` gives the empty string. -/
def JSON.joinItem : JSON → Except JSError JSString
  | .null => .ok []
  | .bool true => .ok (js "true")
  | .bool false => .ok (js "false")
  | .num _ text => .ok text
  | .str s => .ok s
  | .arr items => items.join
  | .obj props => objectToJSString props
end

/-- ECMAScript `ToBoolean` of a parsed value. -/
def JSON.truthy : JSON → Bool
  | .null => false
  | .bool b => b
  | .num nonzero _ => nonzero
  | .str s => !s.isEmpty
  | .arr _ => true
  | .obj _ => true

/-- Truthiness of the result of a property read (`undefined` is falsy). -/
def truthy? : Option JSON → Bool
  | none => false
  | some v => v.truthy

/-- The message of the `TypeError` raised by reading a property of `null`
(wording of V8). -/
def nullPropMessage (key : JSString) : JSString :=
  js "Cannot read properties of null (reading \x27" ++ key ++ js "\x27)"

/-- The property read `v.key` for the property names the program uses
(`detail`, `original_text`, `translated_text`, `audio_base64`): on `null` it
throws, on an object it is the own property or `undefined`, and on a string,
number, boolean or array it is `undefined`, none of these names being defined
on their prototypes. -/
def JSON.getProp (v : JSON) (key : JSString) : Except JSError (Option JSON) :=
  match v with
  | .null => .error ⟨.TypeError, nullPropMessage key⟩
  | .obj props => .ok (props.get key)
  | _ => .ok none

/-- The function `hexToBase64` applied to a truthy parsed value: a string is
transcoded; on any other value `hex.match` is not a function and the call
throws. -/
def hexToBase64Value : JSON → Except JSError JSString
  | .str s => hexToBase64 s
  | _ => .error ⟨.TypeError, js "hex.match is not a function"⟩

/-! ## State of the component and its effects -/

/-- A binary payload with its MIME type. -/
structure Blob where
  bytes : List Nat
  type : JSString
  deriving DecidableEq, Repr

/-- An uploaded file. -/
structure File where
  name : JSString
  blob : Blob
  deriving DecidableEq, Repr

/-- A field appended to a `FormData`. -/
inductive FormField where
  | file (name : JSString) (blob : Blob) (filename : JSString)
  | text (name : JSString) (value : JSString)
  deriving DecidableEq, Repr

/-- A capture stream with the tracks `getTracks()` returns. -/
structure MediaStream where
  id : Nat
  tracks : List Nat
  deriving DecidableEq, Repr

/-- The recorder created by `startRecording`, with what the closures of its
handlers hold (the stream, and the two languages of the render whose
`translateAudio` the `onstop` handler calls) and whether `start()` succeeded
on it. -/
structure MediaRecorder where
  stream : MediaStream
  sourceLang : JSString
  targetLang : JSString
  started : Bool
  deriving DecidableEq, Repr

/-- A call of `startRecording` suspended at `await getUserMedia`.  Its closure
holds the two languages of the render whose handler was called: they are the
ones the `translateAudio` of the `onstop` handler it installs will send. -/
structure StartClosure where
  sourceLang : JSString
  targetLang : JSString
  deriving DecidableEq, Repr

/-- What the component does to the outside world. -/
inductive Effect where
  | getUserMedia
  | recorderStart (stream : Nat)
  | recorderStop (stream : Nat)
  | fetch (url : JSString) (form : List FormField)
  | alert (message : JSString)
  | trackStop (stream : Nat) (track : Nat)
  | createObjectURL (name : JSString)
  deriving DecidableEq, Repr

/-- The state hooks and refs of `App` that the pipeline uses, together with
what is suspended or due at the moment (the calls of `startRecording` waiting
for `getUserMedia`, the stop events the browser still has to deliver, the
`onstop` handlers waiting inside `translateAudio`, the number of exchanges
not yet settled on each channel) and the log of effects so far. -/
structure AppState where
  voiceSourceLang : JSString
  voiceTargetLang : JSString
  isRecording : Bool
  voiceLoading : Bool
  voiceResult : JSON
  videoSourceLang : JSString
  videoTargetLang : JSString
  videoFile : Option File
  videoLoading : Bool
  videoResult : JSON
  mediaRecorderRef : Option MediaRecorder
  audioChunksRef : List (List Nat)
  micPending : List StartClosure
  stopPending : List MediaRecorder
  onstopWaiting : List MediaRecorder
  voiceInFlight : Nat
  videoInFlight : Nat
  log : List Effect

/-- The state of a freshly mounted component (lines 4-26). -/
def AppState.initial : AppState where
  voiceSourceLang := js "English"
  voiceTargetLang := js "Hindi"
  isRecording := false
  voiceLoading := false
  voiceResult := .null
  videoSourceLang := js "English"
  videoTargetLang := js "Hindi"
  videoFile := none
  videoLoading := false
  videoResult := .null
  mediaRecorderRef := none
  audioChunksRef := []
  micPending := []
  stopPending := []
  onstopWaiting := []
  voiceInFlight := 0
  videoInFlight := 0
  log := []

/-- How `response.json()` settles. -/
inductive BodyOutcome where
  | parsed (value : JSON)
  | rejects (e : JSError)

/-- How the `fetch` of a submission settles: the promise rejects (network
failure), or a response arrives with its `ok` flag and its body. -/
inductive FetchOutcome where
  | rejects (e : JSError)
  | responds (ok : Bool) (body : BodyOutcome)

/-! ## `translateAudio` (lines 59-86) and `translateVideo` (lines 99-131) -/

/-- The value of `error.detail || 'Translation failed'` converted to the
message of `new Error(...)`; the conversion of an object can throw. -/
def errorMessageOf (detail : Option JSON) : Except JSError JSString :=
  match detail with
  | some d => if d.truthy then d.toJSString else .ok (js "Translation failed")
  | none => .ok (js "Translation failed")

/-- The part of the `try` block after `await fetch(...)` (lines 74-80, and
119-125): the parsed `data`, or the error that reaches the `catch`. -/
def handleResponse : FetchOutcome → Except JSError JSON
  | .rejects e => .error e
  | .responds false (.rejects e) => .error e
  | .responds false (.parsed error) =>
    match error.getProp (js "detail") with
    | .error e => .error e
    | .ok detail =>
      match errorMessageOf detail with
      | .error e => .error e
      | .ok message => .error ⟨.Error, message⟩
  | .responds true (.rejects e) => .error e
  | .responds true (.parsed data) => .ok data

/-- The form built by `translateAudio` (lines 64-67). -/
def audioForm (sourceLang targetLang : JSString) (audioBlob : Blob) : List FormField :=
  [.file (js "audio") audioBlob (js "recording.webm"),
   .text (js "source_lang") sourceLang,
   .text (js "target_lang") targetLang]

/-- The request `translateAudio` issues. -/
def audioFetch (sourceLang targetLang : JSString) (blob : Blob) : Effect :=
  .fetch (js "http://localhost:8000/translate-audio") (audioForm sourceLang targetLang blob)

/-- The function `translateAudio` up to its suspension at `await fetch`:
the flag is set, the result cleared, the request issued (lines 60-72), which
is one more exchange not yet settled. -/
def translateAudioBegin (sourceLang targetLang : JSString) (audioBlob : Blob)
    (s : AppState) : AppState :=
  { s with
    voiceLoading := true
    voiceResult := .null
    voiceInFlight := s.voiceInFlight + 1
    log := s.log ++ [audioFetch sourceLang targetLang audioBlob] }

/-- The function `translateAudio` from the settlement of the `fetch` to its
return (lines 74-85): `setVoiceResult(data)` or the `alert` of the `catch`,
then the `finally`. -/
def translateAudioEnd (o : FetchOutcome) (s : AppState) : AppState :=
  match handleResponse o with
  | .ok data =>
    { s with voiceResult := data, voiceLoading := false, voiceInFlight := s.voiceInFlight - 1 }
  | .error e =>
    { s with
      voiceLoading := false
      voiceInFlight := s.voiceInFlight - 1
      log := s.log ++ [.alert (js "Error: " ++ e.message)] }

/-- The function `translateAudio`, run to its return when the exchange
settles as `o`.  The languages are those of the closure that is called. -/
def translateAudio (sourceLang targetLang : JSString) (audioBlob : Blob) (o : FetchOutcome)
    (s : AppState) : AppState :=
  translateAudioEnd o (translateAudioBegin sourceLang targetLang audioBlob s)

/-- The form built by `translateVideo` (lines 109-112). -/
def videoForm (sourceLang targetLang : JSString) (videoFile : File) : List FormField :=
  [.file (js "video") videoFile.blob videoFile.name,
   .text (js "source_lang") sourceLang,
   .text (js "target_lang") targetLang]

/-- The request `translateVideo` issues in state `s` for `file`. -/
def videoFetch (s : AppState) (file : File) : Effect :=
  .fetch (js "http://localhost:8000/translate-video")
    (videoForm s.videoSourceLang s.videoTargetLang file)

/-- The function `translateVideo` up to its suspension at `await fetch`, or to
its early return when no file is selected (lines 100-117). -/
def translateVideoBegin (s : AppState) : AppState :=
  match s.videoFile with
  | none => { s with log := s.log ++ [.alert (js "Please upload a video first")] }
  | some videoFile =>
    { s with
      videoLoading := true
      videoResult := .null
      videoInFlight := s.videoInFlight + 1
      log := s.log ++ [videoFetch s videoFile] }

/-- The function `translateVideo` from the settlement of the `fetch` to its
return (lines 119-130). -/
def translateVideoEnd (o : FetchOutcome) (s : AppState) : AppState :=
  match handleResponse o with
  | .ok data =>
    { s with videoResult := data, videoLoading := false, videoInFlight := s.videoInFlight - 1 }
  | .error e =>
    { s with
      videoLoading := false
      videoInFlight := s.videoInFlight - 1
      log := s.log ++ [.alert (js "Error: " ++ e.message)] }

/-- The function `translateVideo`, run to its return. -/
def translateVideo (o : FetchOutcome) (s : AppState) : AppState :=
  match s.videoFile with
  | none => translateVideoBegin s
  | some _ => translateVideoEnd o (translateVideoBegin s)

/-! ## `startRecording` (lines 29-50) and `stopRecording` (lines 52-57) -/

/-- How the `try` block of `startRecording` goes: `getUserMedia` rejects, or
it resolves with a stream and then the `MediaRecorder` constructor throws,
or `start()` throws, or recording starts. -/
inductive CaptureOutcome where
  | rejected (e : JSError)
  | constructorThrows (stream : MediaStream) (e : JSError)
  | startThrows (stream : MediaStream) (e : JSError)
  | started (stream : MediaStream)

/-- The `catch` of `startRecording` (line 48). -/
def micAlert (e : JSError) : Effect :=
  .alert (js "Microphone access denied: " ++ e.message)

/-- The recorder `startRecording` creates on `stream`. -/
def newRecorder (c : StartClosure) (stream : MediaStream) (started : Bool) : MediaRecorder :=
  { stream := stream, sourceLang := c.sourceLang, targetLang := c.targetLang,
    started := started }

/-- The function `startRecording` up to its suspension at
`await navigator.mediaDevices.getUserMedia(...)` (lines 29-31): the
microphone is requested; no state has changed yet. -/
def startRecordingBegin (s : AppState) : AppState :=
  { s with
    micPending := s.micPending ++ [⟨s.voiceSourceLang, s.voiceTargetLang⟩]
    log := s.log ++ [.getUserMedia] }

/-- The function `startRecording` from the settlement of `getUserMedia` to
its return (lines 31-49), in whatever state the component is by then. -/
def startRecordingResume (c : StartClosure) (o : CaptureOutcome) (s : AppState) : AppState :=
  match o with
  | .rejected e => { s with log := s.log ++ [micAlert e] }
  | .constructorThrows _ e => { s with log := s.log ++ [micAlert e] }
  | .startThrows stream e =>
    { s with
      mediaRecorderRef := some (newRecorder c stream false)
      audioChunksRef := []
      log := s.log ++ [micAlert e] }
  | .started stream =>
    { s with
      mediaRecorderRef := some (newRecorder c stream true)
      audioChunksRef := []
      isRecording := true
      log := s.log ++ [.recorderStart stream.id] }

/-- The handler `ondataavailable` (lines 35-37). -/
def ondataavailable (data : List Nat) (s : AppState) : AppState :=
  { s with audioChunksRef := s.audioChunksRef ++ [data] }

/-- The function `stopRecording`: under its guard it calls `stop()` on the
recorder and clears `isRecording`.  The stop event of a recorder that was
recording is then due; `stop()` on a recorder that never started does
nothing. -/
def stopRecording (s : AppState) : AppState :=
  match s.mediaRecorderRef with
  | some recorder =>
    if s.isRecording then
      { s with
        isRecording := false
        stopPending := if recorder.started then s.stopPending ++ [recorder] else s.stopPending
        log := s.log ++ [.recorderStop recorder.stream.id] }
    else s
  | none => s

/-- The blob built at line 40. -/
def audioBlobOf (s : AppState) : Blob :=
  { bytes := s.audioChunksRef.flatten, type := js "audio/webm" }

/-- Line 42: every track of the stream is stopped. -/
def stopTracks (stream : MediaStream) (s : AppState) : AppState :=
  { s with log := s.log ++ stream.tracks.map (Effect.trackStop stream.id) }

/-- The handler `onstop` of `recorder` up to its suspension inside
`await translateAudio(audioBlob)` (lines 40-41, 60-72). -/
def onstopBegin (recorder : MediaRecorder) (s : AppState) : AppState :=
  translateAudioBegin recorder.sourceLang recorder.targetLang (audioBlobOf s) s

/-- The handler `onstop` from the settlement of the exchange to its end
(lines 74-85, then line 42). -/
def onstopEnd (recorder : MediaRecorder) (o : FetchOutcome) (s : AppState) : AppState :=
  stopTracks recorder.stream (translateAudioEnd o s)

/-- The handler `onstop` of `recorder` (lines 39-43), run to its end. -/
def onstop (recorder : MediaRecorder) (o : FetchOutcome) (s : AppState) : AppState :=
  onstopEnd recorder o (onstopBegin recorder s)

/-! ## The buttons and the result panel (lines 211-251, 311-352) -/

/-- A click on the voice button (lines 211-213): nothing while it is
disabled by `voiceLoading`, otherwise `stopRecording` when `isRecording` and
a call of `startRecording` when not. -/
def voiceButtonClick (s : AppState) : AppState :=
  if s.voiceLoading then s
  else if s.isRecording then stopRecording s
  else startRecordingBegin s

/-- A click on the video button (lines 311-315), up to the suspension of
`translateVideo`: the button exists only with a file selected and does
nothing while disabled by `videoLoading`. -/
def videoButtonClick (s : AppState) : AppState :=
  match s.videoFile with
  | none => s
  | some _ => if s.videoLoading then s else translateVideoBegin s

/-- The handler `handleVideoUpload` (lines 88-97) for the first selected file,
if any. -/
def handleVideoUpload (file : Option File) (s : AppState) : AppState :=
  match file with
  | some f => { s with videoFile := some f, log := s.log ++ [.createObjectURL f.name] }
  | none => s

/-! ## The component as an event-driven machine -/

/-- What can happen to the mounted component: a click on one of the two
buttons, a file selection, and the settlements and events the browser
delivers to the suspended functions and installed handlers.  An index picks
the suspended call or due event concerned, in the order they arose. -/
inductive Event where
  | voiceClick
  | micSettles (i : Nat) (o : CaptureOutcome)
  | dataAvailable (data : List Nat)
  | stopEvent (i : Nat)
  | voiceSettles (i : Nat) (o : FetchOutcome)
  | videoUpload (file : Option File)
  | videoClick
  | videoSettles (o : FetchOutcome)

/-- One event handled to the next suspension.  An event for which nothing is
suspended or due changes nothing. -/
def step (s : AppState) : Event → AppState
  | .voiceClick => voiceButtonClick s
  | .micSettles i o =>
    match s.micPending[i]? with
    | some c => startRecordingResume c o { s with micPending := s.micPending.eraseIdx i }
    | none => s
  | .dataAvailable data => ondataavailable data s
  | .stopEvent i =>
    match s.stopPending[i]? with
    | some recorder =>
      { onstopBegin recorder { s with stopPending := s.stopPending.eraseIdx i } with
        onstopWaiting := s.onstopWaiting ++ [recorder] }
    | none => s
  | .voiceSettles i o =>
    match s.onstopWaiting[i]? with
    | some recorder =>
      onstopEnd recorder o { s with onstopWaiting := s.onstopWaiting.eraseIdx i }
    | none => s
  | .videoUpload file => handleVideoUpload file s
  | .videoClick => videoButtonClick s
  | .videoSettles o => if s.videoInFlight = 0 then s else translateVideoEnd o s

/-- The state after a sequence of events. -/
def run (events : List Event) (s : AppState) : AppState :=
  events.foldl step s

/-- The message of the error React throws for an object placed as a child
(the beginning of React's wording; the rest lists the keys of the object). -/
def objectChildMessage : JSString := js "Objects are not valid as a React child"

mutual
/-- The text nodes React makes of a parsed value placed as a child: nothing
for `null` and booleans, the text of a number, the text of a non-empty
string, the nodes of the elements of an array, and an exception for an
object. -/
def JSON.renderChild : JSON → Except JSError (List JSString)
  | .null => .ok []
  | .bool _ => .ok []
  | .num _ text => .ok [text]
  | .str s => .ok (if s.isEmpty then [] else [s])
  | .arr items => items.renderChildren
  | .obj _ => .error ⟨.Error, objectChildMessage⟩
/-- The text nodes of the elements of an array child, in order. -/
def JSONItems.renderChildren : JSONItems → Except JSError (List JSString)
  | .nil => .ok []
  | .cons x rest =>
    match x.renderChild, rest.renderChildren with
    | .ok a, .ok b => .ok (a ++ b)
    | .error e, _ => .error e
    | .ok _, .error e => .error e
end

/-- The text nodes of the result of a property read placed as a child
(`undefined` renders nothing). -/
def renderChild? : Option JSON → Except JSError (List JSString)
  | none => .ok []
  | some v => v.renderChild

/-- What stands in the place of the audio block: the `audio` element with its
`src`, or the falsy value of `audio_base64` rendered as a child. -/
inductive AudioPart where
  | element (src : JSString)
  | text (nodes : List JSString)

/-- What the result panel shows: the text nodes of the two paragraphs and the
audio part. -/
structure ResultPanel where
  originalText : List JSString
  translatedText : List JSString
  audio : AudioPart

/-- What stands in the place of the result panel: the panel, or the falsy
result itself rendered as a child. -/
inductive ResultView where
  | panel (p : ResultPanel)
  | bare (nodes : List JSString)

/-- Evaluation of `result.audio_base64 && (... hexToBase64(...) ...)`
(lines 240-249): for a truthy payload the `src` is computed, and
`hexToBase64` may throw; a falsy payload is the value of the expression. -/
def evalAudioPart (audio : Option JSON) : Except JSError (Option JSString) :=
  match audio with
  | some hex =>
    if hex.truthy then
      match hexToBase64Value hex with
      | .ok b64 => .ok (some (js "data:audio/mp3;base64," ++ b64))
      | .error e => .error e
    else .ok none
  | none => .ok none

/-- The render of the result panel expression (lines 226-251, and 327-352)
for the channel's result.  First the expression is evaluated: the three
properties are read and, for a truthy `audio_base64`, `hexToBase64` is called.
Then React renders the children: the two texts and the audio part.  An
exception in either phase leaves the render as a whole without a value (the
component has no error boundary). -/
def renderResult (result : JSON) : Except JSError ResultView :=
  if result.truthy then
    match result.getProp (js "original_text"), result.getProp (js "translated_text"),
      result.getProp (js "audio_base64") with
    | .ok original, .ok translated, .ok audio =>
      match evalAudioPart audio with
      | .error e => .error e
      | .ok src =>
        match renderChild? original, renderChild? translated, src, renderChild? audio with
        | .ok o, .ok t, some url, _ => .ok (.panel ⟨o, t, .element url⟩)
        | .ok o, .ok t, none, .ok nodes => .ok (.panel ⟨o, t, .text nodes⟩)
        | .error e, _, _, _ => .error e
        | .ok _, .error e, _, _ => .error e
        | .ok _, .ok _, none, .error e => .error e
    | .error e, _, _ => .error e
    | _, .error e, _ => .error e
    | _, _, .error e => .error e
  else
    match result.renderChild with
    | .ok nodes => .ok (.bare nodes)
    | .error e => .error e

/-- The text nodes of a string child. -/
def textNodes (s : JSString) : List JSString := if s.isEmpty then [] else [s]

/-- The text nodes of a falsy value placed as a child: the text of the number
zero, nothing otherwise. -/
def falsyNodes : Option JSON → List JSString
  | some (.num _ text) => [text]
  | _ => []

/-! ## Observations used in the statements -/

/-- The error thrown on a non-success response. -/
def nonSuccessError (body : BodyOutcome) : JSError :=
  match handleResponse (.responds false body) with
  | .error e => e
  | .ok _ => ⟨.Error, []⟩

/-! ## Sample states and inputs -/

/-- A state with a video file selected and both channels in flight. -/
def busyState : AppState :=
  { AppState.initial with
    voiceLoading := true
    videoLoading := true
    voiceInFlight := 1
    videoInFlight := 1
    videoFile := some ⟨js "clip.mp4", ⟨[0, 1], js "video/mp4"⟩⟩ }

/-- An empty body, on which `response.json()` rejects. -/
def emptyBody : BodyOutcome := .rejects ⟨.SyntaxError, js "Unexpected end of JSON input"⟩

/-- The body `{"detail": ""}`. -/
def emptyDetailBody : BodyOutcome := .parsed (.obj (.cons (js "detail") (.str []) .nil))

/-- The body `{"detail": "unsupported language"}`. -/
def unsupportedLanguageBody : BodyOutcome :=
  .parsed (.obj (.cons (js "detail") (.str (js "unsupported language")) .nil))

/-- A state of the voice channel holding the result of an earlier submission. -/
def staleResultState : AppState :=
  { busyState with voiceResult := .str (js "old"), videoResult := .str (js "old") }

/-- The result `{"original_text": "Hello", "translated_text": "नमस्ते",
"audio_base64": "\n"}`. -/
def lineFeedPayloadResult : JSON :=
  .obj (.cons (js "original_text") (.str (js "Hello"))
    (.cons (js "translated_text") (.str (js "नमस्ते"))
      (.cons (js "audio_base64") (.str [10]) .nil)))

/-- The result `{"original_text": "Hello", "translated_text": "नमस्ते",
"audio_base64": 5}`. -/
def numberPayloadResult : JSON :=
  .obj (.cons (js "original_text") (.str (js "Hello"))
    (.cons (js "translated_text") (.str (js "नमस्ते"))
      (.cons (js "audio_base64") (.num true (js "5")) .nil)))

/-- The properties `{"original_text": "Hello", "translated_text": "नमस्ते",
"audio_base64": "48656c6c6f"}` of the result of the end-to-end scenario. -/
def helloProps : JSONProps :=
  .cons (js "original_text") (.str (js "Hello"))
    (.cons (js "translated_text") (.str (js "नमस्ते"))
      (.cons (js "audio_base64") (.str (js "48656c6c6f")) .nil))

/-- A recording in progress: started on stream 1 from the initial state, one
fragment received. -/
def recordingState : AppState :=
  run [.voiceClick, .micSettles 0 (.started ⟨1, [10]⟩), .dataAvailable [1, 2]] AppState.initial

/-- The recorder of `recordingState`. -/
def recorder1 : MediaRecorder := ⟨⟨1, [10]⟩, js "English", js "Hindi", true⟩

/-- The voice channel after a recording was stopped and before its stop
event is delivered. -/
def finalizingState : AppState :=
  run [.voiceClick, .micSettles 0 (.started ⟨1, [10]⟩), .dataAvailable [1, 2], .voiceClick]
    AppState.initial

/-- Two recordings stopped one after the other, then their two stop events
delivered. -/
def twoStopsRun : List Event :=
  [.voiceClick, .micSettles 0 (.started ⟨1, [10]⟩), .voiceClick,
   .voiceClick, .micSettles 0 (.started ⟨2, [20]⟩), .voiceClick,
   .stopEvent 0, .stopEvent 0]

/-- Two clicks on the voice button before `getUserMedia` answers, both
requests granted, a fragment, a click to stop, the stop event, and the
exchange settled with a success response. -/
def doubleStartRun : List Event :=
  [.voiceClick, .voiceClick,
   .micSettles 0 (.started ⟨1, [10]⟩), .micSettles 0 (.started ⟨2, [20]⟩),
   .dataAvailable [1, 2], .voiceClick, .stopEvent 0,
   .voiceSettles 0 (.responds true (.parsed (.obj helloProps)))]

/-- A file selected in the initial state. -/
def fileSelectedState : AppState :=
  run [.videoUpload (some ⟨js "clip.mp4", ⟨[0, 1], js "video/mp4"⟩⟩)] AppState.initial

/-- The invariant of the video channel: at most one exchange is not yet
settled, and `videoLoading` is `true` exactly when one is. -/
def VideoSingleFlight (s : AppState) : Prop :=
  s.videoInFlight ≤ 1 ∧ (s.videoLoading = true ↔ s.videoInFlight = 1)

/-! # Theorems -/

/-! ## `hexToBase64` -/

theorem foldl_snoc (l init : List Nat) :
    l.foldl (fun acc byte => acc ++ [byte]) init = init ++ l := by
  induction l generalizing init with
  | nil => simp
  | cons x xs ih => simp [ih]

theorem toUint8_lt (v : Option Int) : toUint8 v < 256 := by
  cases v with
  | none => simp [toUint8]
  | some n =>
    simp only [toUint8]
    have h1 : 0 ≤ n % 256 := Int.emod_nonneg _ (by decide)
    have h2 : n % 256 < 256 := Int.emod_lt_of_pos _ (by decide)
    omega

theorem btoa_groupsToBytes (groups : List JSString) :
    btoa (groupsToBytes groups) = .ok (base64Encode (groupsToBytes groups)) := by
  have h : (groupsToBytes groups).all (fun c => decide (c ≤ 255)) = true := by
    simp only [groupsToBytes, List.all_eq_true, List.mem_map, decide_eq_true_eq]
    rintro c ⟨g, -, rfl⟩
    have := toUint8_lt (parseInt16 g)
    omega
  simp [btoa, h]

/-- Whenever the regular expression matches, `hexToBase64` returns the
base64 text of the parsed groups. -/
theorem hexToBase64_of_match (hex : JSString) (groups : List JSString)
    (h : regexMatch hex = some groups) :
    hexToBase64 hex = .ok (base64Encode (groupsToBytes groups)) := by
  simp only [hexToBase64, h, foldl_snoc, List.nil_append]
  exact btoa_groupsToBytes groups

theorem matchGroups_eq_nil_iff (hex : JSString) :
    matchGroups hex = [] ↔ ∀ c ∈ hex, isLineTerminator c = true := by
  induction hex using matchGroups.induct with
  | case1 => simp [matchGroups]
  | case2 a h => simp [matchGroups, h]
  | case3 a h => simp [matchGroups, h]
  | case4 a b rest ha ih => simp [matchGroups, ha, ih]
  | case5 a b rest ha hb ih => simp [matchGroups, ha, hb]
  | case6 a b rest ha hb ih => simp [matchGroups, ha, hb]

/-- The match is `null` exactly for strings made of line terminators only
(the empty string among them). -/
theorem regexMatch_eq_none_iff (hex : JSString) :
    regexMatch hex = none ↔ ∀ c ∈ hex, isLineTerminator c = true := by
  rw [← matchGroups_eq_nil_iff]
  unfold regexMatch
  split <;> simp_all

theorem hexToBase64_error_iff (hex : JSString) :
    (∃ e, hexToBase64 hex = .error e) ↔ ∀ c ∈ hex, isLineTerminator c = true := by
  rw [← regexMatch_eq_none_iff]
  cases h : regexMatch hex with
  | none => simp [hexToBase64, h]
  | some groups => simp [hexToBase64_of_match hex groups h]

theorem isHexDigit_bounds {c : Nat} (h : isHexDigit c = true) :
    (48 ≤ c ∧ c ≤ 57) ∨ (97 ≤ c ∧ c ≤ 102) ∨ (65 ≤ c ∧ c ≤ 70) := by
  simp only [isHexDigit, Bool.or_eq_true, Bool.and_eq_true, decide_eq_true_eq] at h
  omega

theorem hexDigitValue_of_isHexDigit {c : Nat} (h : isHexDigit c = true) :
    ∃ v, hexDigitValue c = some v ∧ v < 16 ∧ hexDigitChar v = toLowerUnit c := by
  have hb := isHexDigit_bounds h
  unfold hexDigitValue hexDigitChar toLowerUnit
  rcases hb with hb | hb | hb
  · refine ⟨c - 48, by simp [hb], by omega, ?_⟩
    rw [if_pos (by omega), if_neg (by omega)]; omega
  · refine ⟨c - 87, ?_, by omega, ?_⟩
    · rw [if_neg (by omega), if_pos hb]
    · rw [if_neg (by omega), if_neg (by omega)]; omega
  · refine ⟨c - 55, ?_, by omega, ?_⟩
    · rw [if_neg (by omega), if_neg (by omega), if_pos hb]
    · rw [if_neg (by omega), if_pos (by omega)]; omega

theorem isLineTerminator_of_isHexDigit {c : Nat} (h : isHexDigit c = true) :
    isLineTerminator c = false := by
  have hb := isHexDigit_bounds h
  simp only [isLineTerminator, Bool.or_eq_false_iff, beq_eq_false_iff_ne]
  omega

theorem isStrWhiteSpace_of_isHexDigit {c : Nat} (h : isHexDigit c = true) :
    isStrWhiteSpace c = false := by
  have hb := isHexDigit_bounds h
  simp only [isStrWhiteSpace, Bool.or_eq_false_iff, beq_eq_false_iff_ne, Bool.and_eq_false_iff,
    decide_eq_false_iff_not]
  omega

theorem splitSign_of_ne {c : Nat} (cs : JSString) (h1 : c ≠ 45) (h2 : c ≠ 43) :
    splitSign (c :: cs) = (false, c :: cs) := by
  unfold splitSign
  split <;> simp_all

theorem stripHexPrefix_of_ne {a b : Nat} (cs : JSString) (h1 : b ≠ 120) (h2 : b ≠ 88) :
    stripHexPrefix (a :: b :: cs) = a :: b :: cs := by
  unfold stripHexPrefix
  split <;> simp_all

/-- A group of two hex digits is parsed to `16 * value + value`. -/
theorem toUint8_parseInt16_pair {a b : Nat} (ha : isHexDigit a = true) (hb : isHexDigit b = true) :
    toUint8 (parseInt16 [a, b]) =
      16 * (hexDigitValue a).getD 0 + (hexDigitValue b).getD 0 := by
  obtain ⟨va, hva, hva16, -⟩ := hexDigitValue_of_isHexDigit ha
  obtain ⟨vb, hvb, hvb16, -⟩ := hexDigitValue_of_isHexDigit hb
  have ba := isHexDigit_bounds ha
  have bb := isHexDigit_bounds hb
  have h1 : trimLeadingWhiteSpace [a, b] = [a, b] := by
    simp [trimLeadingWhiteSpace, isStrWhiteSpace_of_isHexDigit ha]
  have h2 : splitSign [a, b] = (false, [a, b]) := splitSign_of_ne _ (by omega) (by omega)
  have h3 : stripHexPrefix [a, b] = [a, b] := stripHexPrefix_of_ne _ (by omega) (by omega)
  have h4 : takeHexDigits [a, b] = [va, vb] := by simp [takeHexDigits, hva, hvb]
  simp only [parseInt16, h1, h2, h3, h4, hva, hvb, List.foldl_cons, List.foldl_nil, toUint8,
    Option.getD_some, Bool.false_eq_true, if_false]
  omega

theorem hexBytes_cons_cons (a b : Nat) (rest : JSString) :
    hexBytes (a :: b :: rest) =
      (16 * (hexDigitValue a).getD 0 + (hexDigitValue b).getD 0) :: hexBytes rest := by
  have hlen : (a :: b :: rest).length / 2 = rest.length / 2 + 1 := by
    simp only [List.length_cons]; omega
  unfold hexBytes
  rw [hlen, List.range_succ_eq_map, List.map_cons, List.map_map]
  congr 1

/-- On a hex string of even length the groups are the digit pairs and the
parsed bytes are the specification's bytes. -/
theorem groupsToBytes_matchGroups_hex :
    ∀ (h : JSString), h.length % 2 = 0 → (∀ c ∈ h, isHexDigit c = true) →
      groupsToBytes (matchGroups h) = hexBytes h
  | [], _, _ => by rfl
  | [a], hlen, _ => by simp at hlen
  | a :: b :: rest, hlen, hhex => by
    have ha : isHexDigit a = true := hhex a (by simp)
    have hb : isHexDigit b = true := hhex b (by simp)
    have hrest : ∀ c ∈ rest, isHexDigit c = true := fun c hc => hhex c (by simp [hc])
    have hlen2 : rest.length % 2 = 0 := by simp only [List.length_cons] at hlen; omega
    have ih := groupsToBytes_matchGroups_hex rest hlen2 hrest
    rw [hexBytes_cons_cons, ← ih]
    simp only [matchGroups, isLineTerminator_of_isHexDigit ha, isLineTerminator_of_isHexDigit hb,
      groupsToBytes, List.map_cons, Bool.false_eq_true, if_false]
    rw [toUint8_parseInt16_pair ha hb]

theorem bytesToHex_hexBytes :
    ∀ (h : JSString), h.length % 2 = 0 → (∀ c ∈ h, isHexDigit c = true) →
      bytesToHex (hexBytes h) = h.map toLowerUnit
  | [], _, _ => by rfl
  | [a], hlen, _ => by simp at hlen
  | a :: b :: rest, hlen, hhex => by
    have ha : isHexDigit a = true := hhex a (by simp)
    have hb : isHexDigit b = true := hhex b (by simp)
    have hrest : ∀ c ∈ rest, isHexDigit c = true := fun c hc => hhex c (by simp [hc])
    have hlen2 : rest.length % 2 = 0 := by simp only [List.length_cons] at hlen; omega
    have ih := bytesToHex_hexBytes rest hlen2 hrest
    obtain ⟨va, hva, hva16, hca⟩ := hexDigitValue_of_isHexDigit ha
    obtain ⟨vb, hvb, hvb16, hcb⟩ := hexDigitValue_of_isHexDigit hb
    rw [hexBytes_cons_cons, bytesToHex, ih, hva, hvb]
    simp only [Option.getD_some, List.map_cons]
    have e1 : (16 * va + vb) / 16 = va := by omega
    have e2 : (16 * va + vb) % 16 = vb := by omega
    rw [e1, e2, hca, hcb]

theorem b64Value_b64Char : ∀ n, n < 64 → b64Value (b64Char n) = some n ∧ b64Char n ≠ 61 := by
  decide

/-- Decoding the base64 text of a byte sequence gives the bytes back. -/
theorem base64Decode_base64Encode :
    ∀ (bs : List Nat), (∀ b ∈ bs, b < 256) → base64Decode (base64Encode bs) = some bs
  | [], _ => by rfl
  | [a], hb => by
    have ha : a < 256 := hb a (by simp)
    obtain ⟨h1, -⟩ := b64Value_b64Char (a / 4) (by omega)
    obtain ⟨h2, -⟩ := b64Value_b64Char (a % 4 * 16) (by omega)
    simp only [base64Encode, base64Decode, h1, h2, and_self, if_true]
    congr 2
    omega
  | [a, b], hb => by
    have ha : a < 256 := hb a (by simp)
    have hb' : b < 256 := hb b (by simp)
    obtain ⟨h1, -⟩ := b64Value_b64Char (a / 4) (by omega)
    obtain ⟨h2, -⟩ := b64Value_b64Char (a % 4 * 16 + b / 16) (by omega)
    obtain ⟨h3, n3⟩ := b64Value_b64Char (b % 16 * 4) (by omega)
    simp only [base64Encode, base64Decode, h1, h2, h3, n3, false_and, if_false, and_self, if_true]
    have e1 : a / 4 * 4 + (a % 4 * 16 + b / 16) / 16 = a := by omega
    have e2 : (a % 4 * 16 + b / 16) % 16 * 16 + b % 16 * 4 / 4 = b := by omega
    rw [e1, e2]
  | a :: b :: c :: rest, hb => by
    have ha : a < 256 := hb a (by simp)
    have hb' : b < 256 := hb b (by simp)
    have hc : c < 256 := hb c (by simp)
    have hrest : ∀ x ∈ rest, x < 256 := fun x hx => hb x (by simp [hx])
    have ih := base64Decode_base64Encode rest hrest
    obtain ⟨h1, -⟩ := b64Value_b64Char (a / 4) (by omega)
    obtain ⟨h2, -⟩ := b64Value_b64Char (a % 4 * 16 + b / 16) (by omega)
    obtain ⟨h3, n3⟩ := b64Value_b64Char (b % 16 * 4 + c / 64) (by omega)
    obtain ⟨h4, n4⟩ := b64Value_b64Char (c % 64) (by omega)
    simp only [base64Encode, base64Decode, h1, h2, h3, h4, n3, n4, ih, false_and, if_false]
    have e1 : a / 4 * 4 + (a % 4 * 16 + b / 16) / 16 = a := by omega
    have e2 : (a % 4 * 16 + b / 16) % 16 * 16 + (b % 16 * 4 + c / 64) / 4 = b := by omega
    have e3 : (b % 16 * 4 + c / 64) % 4 * 64 + c % 64 = c := by omega
    rw [e1, e2, e3]

theorem hexBytes_lt (h : JSString) (heven : h.length % 2 = 0)
    (hhex : ∀ c ∈ h, isHexDigit c = true) : ∀ b ∈ hexBytes h, b < 256 := by
  rw [← groupsToBytes_matchGroups_hex h heven hhex]
  intro b hb
  simp only [groupsToBytes, List.mem_map] at hb
  obtain ⟨g, -, rfl⟩ := hb
  exact toUint8_lt _

theorem hexDigitValue_some_bounds {c v : Nat} (h : hexDigitValue c = some v) :
    v < 16 ∧ isStrWhiteSpace c = false ∧ c ≠ 43 ∧ c ≠ 45 ∧ c ≠ 120 ∧ c ≠ 88 := by
  unfold hexDigitValue at h
  have hws : ∀ (_ : 48 ≤ c ∧ c ≤ 102), isStrWhiteSpace c = false := by
    intro hb
    simp only [isStrWhiteSpace, Bool.or_eq_false_iff, beq_eq_false_iff_ne, Bool.and_eq_false_iff,
      decide_eq_false_iff_not]
    omega
  split_ifs at h with h1 h2 h3
  · cases h
    exact ⟨by omega, hws (by omega), by omega, by omega, by omega, by omega⟩
  · cases h
    exact ⟨by omega, hws (by omega), by omega, by omega, by omega, by omega⟩
  · cases h
    exact ⟨by omega, hws (by omega), by omega, by omega, by omega, by omega⟩

theorem hexDigitValue_none_of_ws {c : Nat} (h : isStrWhiteSpace c = true) :
    hexDigitValue c = none := by
  cases hv : hexDigitValue c with
  | none => rfl
  | some v =>
    have := (hexDigitValue_some_bounds hv).2.1
    rw [h] at this
    cases this

theorem stripHexPrefix_single (b : Nat) : stripHexPrefix [b] = [b] := by
  unfold stripHexPrefix
  split <;> simp_all

theorem stripHexPrefix_nil : stripHexPrefix [] = [] := by
  unfold stripHexPrefix
  split <;> simp_all

theorem toUint8_parseInt16_single (a : Nat) :
    toUint8 (parseInt16 [a]) = lenientGroupByte [a] := by
  by_cases hws : isStrWhiteSpace a = true
  · simp [parseInt16, trimLeadingWhiteSpace, hws, splitSign, stripHexPrefix_nil, takeHexDigits,
      toUint8, lenientGroupByte, hexDigitValue_none_of_ws hws]
  · have hws' : isStrWhiteSpace a = false := by simpa using hws
    by_cases h45 : a = 45
    · subst h45
      simp [parseInt16, trimLeadingWhiteSpace, hws', splitSign, stripHexPrefix_nil, takeHexDigits,
        toUint8, lenientGroupByte, hexDigitValue]
    · by_cases h43 : a = 43
      · subst h43
        simp [parseInt16, trimLeadingWhiteSpace, hws', splitSign, stripHexPrefix_nil,
          takeHexDigits, toUint8, lenientGroupByte, hexDigitValue]
      · cases hv : hexDigitValue a with
        | none =>
          simp [parseInt16, trimLeadingWhiteSpace, hws', splitSign_of_ne [] h45 h43,
            stripHexPrefix_single, takeHexDigits, hv, toUint8, lenientGroupByte]
        | some v =>
          have hb := hexDigitValue_some_bounds hv
          simp only [parseInt16, trimLeadingWhiteSpace, hws', splitSign_of_ne [] h45 h43,
            stripHexPrefix_single, takeHexDigits, hv, toUint8, lenientGroupByte,
            Bool.false_eq_true, if_false, List.foldl_cons, List.foldl_nil, Option.getD_some]
          omega

theorem parseInt16_skip_ws {a : Nat} (cs : JSString) (h : isStrWhiteSpace a = true) :
    parseInt16 (a :: cs) = parseInt16 cs := by
  simp only [parseInt16, trimLeadingWhiteSpace, h, if_true]

theorem stripHexPrefix_pair {a b : Nat} (h : ¬(a = 48 ∧ (b = 120 ∨ b = 88))) :
    stripHexPrefix [a, b] = [a, b] := by
  unfold stripHexPrefix
  split <;> simp_all

theorem toUint8_parseInt16_two (a b : Nat) :
    toUint8 (parseInt16 [a, b]) = lenientGroupByte [a, b] := by
  by_cases hws : isStrWhiteSpace a = true
  · rw [parseInt16_skip_ws _ hws, toUint8_parseInt16_single]
    simp only [lenientGroupByte, hexDigitValue_none_of_ws hws, hws, Bool.true_or, if_true]
    cases hexDigitValue b <;> rfl
  · have hws' : isStrWhiteSpace a = false := by simpa using hws
    have htrim : trimLeadingWhiteSpace [a, b] = [a, b] := by
      simp [trimLeadingWhiteSpace, hws']
    by_cases h45 : a = 45
    · subst h45
      have ha : hexDigitValue 45 = none := by decide
      cases hv : hexDigitValue b with
      | none =>
        simp [parseInt16, htrim, splitSign, stripHexPrefix_single, takeHexDigits, hv, toUint8,
          lenientGroupByte, ha]
      | some y =>
        have hb := hexDigitValue_some_bounds hv
        simp only [parseInt16, htrim, splitSign, stripHexPrefix_single, takeHexDigits, hv,
          toUint8, lenientGroupByte, ha, hws', List.foldl_cons, List.foldl_nil, if_true]
        simp
        omega
    · by_cases h43 : a = 43
      · subst h43
        have ha : hexDigitValue 43 = none := by decide
        cases hv : hexDigitValue b with
        | none =>
          simp [parseInt16, htrim, splitSign, stripHexPrefix_single, takeHexDigits, hv, toUint8,
            lenientGroupByte, ha]
        | some y =>
          have hb := hexDigitValue_some_bounds hv
          simp only [parseInt16, htrim, splitSign, stripHexPrefix_single, takeHexDigits, hv,
            toUint8, lenientGroupByte, ha, List.foldl_cons, List.foldl_nil]
          simp
          omega
      · have hsign : splitSign [a, b] = (false, [a, b]) := splitSign_of_ne _ h45 h43
        by_cases hx : a = 48 ∧ (b = 120 ∨ b = 88)
        · obtain ⟨rfl, hb⟩ := hx
          have ha : hexDigitValue 48 = some 0 := by decide
          have hbn : hexDigitValue b = none := by rcases hb with rfl | rfl <;> decide
          have hstrip : stripHexPrefix [48, b] = [] := by
            rcases hb with rfl | rfl <;> rfl
          simp [parseInt16, htrim, hsign, hstrip, takeHexDigits, toUint8, lenientGroupByte, ha,
            hbn]
        · have hstrip := stripHexPrefix_pair hx
          cases hva : hexDigitValue a with
          | none =>
            have h1 : toUint8 (parseInt16 [a, b]) = 0 := by
              simp [parseInt16, htrim, hsign, hstrip, takeHexDigits, hva, toUint8]
            rw [h1]
            simp only [lenientGroupByte, hva, hws', Bool.false_or]
            cases hexDigitValue b with
            | none => rfl
            | some y => simp [h43, h45]
          | some x =>
            have hxb := hexDigitValue_some_bounds hva
            cases hvb : hexDigitValue b with
            | none =>
              simp only [parseInt16, htrim, hsign, hstrip, takeHexDigits, hva, hvb, toUint8,
                lenientGroupByte, List.foldl_cons, List.foldl_nil, Bool.false_eq_true, if_false]
              omega
            | some y =>
              have hyb := hexDigitValue_some_bounds hvb
              simp only [parseInt16, htrim, hsign, hstrip, takeHexDigits, hva, hvb, toUint8,
                lenientGroupByte, List.foldl_cons, List.foldl_nil, Bool.false_eq_true, if_false]
              omega

theorem groupsToBytes_pairGroups :
    ∀ (h : JSString), groupsToBytes (pairGroups h) = (pairGroups h).map lenientGroupByte
  | [] => rfl
  | [a] => by
    simp only [pairGroups, groupsToBytes, List.map_cons, List.map_nil, toUint8_parseInt16_single]
  | a :: b :: rest => by
    have ih := groupsToBytes_pairGroups rest
    simp only [groupsToBytes] at ih
    simp only [pairGroups, groupsToBytes, List.map_cons, toUint8_parseInt16_two, ih]

theorem matchGroups_eq_pairGroups :
    ∀ (h : JSString), (∀ c ∈ h, isLineTerminator c = false) → matchGroups h = pairGroups h
  | [], _ => rfl
  | [a], hlt => by simp [matchGroups, pairGroups, hlt a (by simp)]
  | a :: b :: rest, hlt => by
    have ih := matchGroups_eq_pairGroups rest (fun c hc => hlt c (by simp [hc]))
    simp [matchGroups, pairGroups, hlt a (by simp), hlt b (by simp), ih]

/-! ## Claims about `hexToBase64` -/

/-- C1, counterexample: the empty string has even length and no character
outside the hex digits, yet `hexToBase64` throws on it instead of returning
the base64 text of the empty byte sequence. -/
theorem hexToBase64_empty_throws :
    ([] : JSString).length % 2 = 0 ∧ (∀ c ∈ ([] : JSString), isHexDigit c = true) ∧
      hexToBase64 [] = .error ⟨.TypeError, nullMapMessage⟩ ∧
      ¬ ∃ out, hexToBase64 [] = .ok out := by
  refine ⟨rfl, by simp, rfl, ?_⟩
  rintro ⟨out, h⟩
  cases h

/-- C1, amended: for every non-empty even-length string `h` of hex digits,
`hexToBase64 h` returns the base64 text of the byte sequence whose `i`-th byte
is `16 * value(h[2i]) + value(h[2i+1])`; decoding that text gives these bytes
back, and writing them as hex gives `h` up to letter case. -/
theorem hexToBase64_hex_roundtrip (h : JSString) (hne : h ≠ [])
    (heven : h.length % 2 = 0) (hhex : ∀ c ∈ h, isHexDigit c = true) :
    hexToBase64 h = .ok (base64Encode (hexBytes h)) ∧
      base64Decode (base64Encode (hexBytes h)) = some (hexBytes h) ∧
      bytesToHex (hexBytes h) = h.map toLowerUnit := by
  refine ⟨?_, base64Decode_base64Encode _ (hexBytes_lt h heven hhex),
    bytesToHex_hexBytes h heven hhex⟩
  cases hm : regexMatch h with
  | none =>
    exfalso
    rw [regexMatch_eq_none_iff] at hm
    cases h with
    | nil => exact hne rfl
    | cons a t =>
      have h1 := hm a (by simp)
      have h2 := isLineTerminator_of_isHexDigit (hhex a (by simp))
      rw [h1] at h2
      cases h2
  | some groups =>
    rw [hexToBase64_of_match h groups hm, ← groupsToBytes_matchGroups_hex h heven hhex]
    unfold regexMatch at hm
    split at hm
    · cases hm
    · rename_i g gs hg
      cases hm
      rw [hg]

/-- C1, witness: the payload `48656c6c6f`. -/
theorem hexToBase64_hex_roundtrip_witness :
    hexToBase64 (js "48656c6c6f") = .ok (js "SGVsbG8=") ∧
      hexBytes (js "48656c6c6f") = js "Hello" ∧
      (hexToBase64 (js "48656c6c6f") = .ok (base64Encode (hexBytes (js "48656c6c6f"))) ∧
        base64Decode (base64Encode (hexBytes (js "48656c6c6f"))) =
          some (hexBytes (js "48656c6c6f")) ∧
        bytesToHex (hexBytes (js "48656c6c6f")) = (js "48656c6c6f").map toLowerUnit) :=
  ⟨rfl, rfl, hexToBase64_hex_roundtrip (js "48656c6c6f") (by decide) (by decide) (by decide)⟩

/-- C2, counterexample: on the odd-length input `48656c6c6` and on `48g56c`,
which has a character outside the hex digits, `hexToBase64` signals no
failure: it returns the base64 text of the bytes `48 65 6c 6c 06` and of
`48 00 6c`. -/
theorem hexToBase64_accepts_malformed :
    (js "48656c6c6").length % 2 = 1 ∧ hexToBase64 (js "48656c6c6") = .ok (js "SGVsbAY=") ∧
      (∃ c ∈ js "48g56c", isHexDigit c = false) ∧ hexToBase64 (js "48g56c") = .ok (js "SABs") :=
  ⟨rfl, rfl, ⟨103, by decide, rfl⟩, rfl⟩

/-- C2, amended: `hexToBase64` does not validate its input.  On a string of
odd length or with a character outside the hex digits it throws, and then a
`TypeError`, exactly when the string consists of line terminators only; it
returns a text whenever some character is not a line terminator; and when no
character is a line terminator that text is the base64 of the bytes of the
consecutive two-character groups (a final single character being a group of
its own), each read leniently as `lenientGroupByte` says, and it decodes back
to these bytes. -/
theorem hexToBase64_malformed (h : JSString)
    (hbad : h.length % 2 = 1 ∨ ∃ c ∈ h, isHexDigit c = false) :
    ((∀ c ∈ h, isLineTerminator c = true) →
        hexToBase64 h = .error ⟨.TypeError, nullMapMessage⟩) ∧
      ((∃ c ∈ h, isLineTerminator c = false) → ∃ out, hexToBase64 h = .ok out) ∧
      ((∀ c ∈ h, isLineTerminator c = false) →
        hexToBase64 h = .ok (base64Encode ((pairGroups h).map lenientGroupByte)) ∧
          base64Decode (base64Encode ((pairGroups h).map lenientGroupByte)) =
            some ((pairGroups h).map lenientGroupByte)) := by
  have hok : (∃ c ∈ h, isLineTerminator c = false) →
      hexToBase64 h = .ok (base64Encode (groupsToBytes (matchGroups h))) := by
    rintro ⟨c, hc, hlt⟩
    cases hm : regexMatch h with
    | none =>
      rw [regexMatch_eq_none_iff] at hm
      rw [hm c hc] at hlt
      cases hlt
    | some groups =>
      rw [hexToBase64_of_match h groups hm]
      unfold regexMatch at hm
      split at hm
      · cases hm
      · rename_i g gs hg
        cases hm
        rw [hg]
  refine ⟨?_, ?_, ?_⟩
  · intro hall
    have hm := (regexMatch_eq_none_iff h).2 hall
    simp only [hexToBase64, hm]
  · intro hex
    exact ⟨_, hok hex⟩
  · intro hnone
    have hne : ∃ c ∈ h, isLineTerminator c = false := by
      cases h with
      | nil =>
        rcases hbad with hodd | ⟨c, hc, -⟩
        · simp at hodd
        · simp at hc
      | cons a t => exact ⟨a, by simp, hnone a (by simp)⟩
    have hbytes : groupsToBytes (matchGroups h) = (pairGroups h).map lenientGroupByte := by
      rw [matchGroups_eq_pairGroups h hnone, groupsToBytes_pairGroups]
    rw [hok hne, hbytes]
    refine ⟨rfl, base64Decode_base64Encode _ ?_⟩
    rw [← hbytes]
    intro b hb
    simp only [groupsToBytes, List.mem_map] at hb
    obtain ⟨g, -, rfl⟩ := hb
    exact toUint8_lt _

/-- C2, witness: the odd-length input `48656c6c6` gives the bytes
`48 65 6c 6c 06`, and `48g56c` gives `48 00 6c`. -/
theorem hexToBase64_malformed_witness :
    hexToBase64 (js "48656c6c6") = .ok (base64Encode [0x48, 0x65, 0x6c, 0x6c, 0x06]) ∧
      hexToBase64 (js "48g56c") = .ok (base64Encode [0x48, 0x00, 0x6c]) :=
  ⟨((hexToBase64_malformed (js "48656c6c6") (Or.inl rfl)).2.2 (by decide)).1,
    ((hexToBase64_malformed (js "48g56c") (Or.inr ⟨103, by decide, rfl⟩)).2.2 (by decide)).1⟩

/-! ## Claims about `translateAudio` and `translateVideo` -/

theorem handleResponse_ok_iff (o : FetchOutcome) (data : JSON) :
    handleResponse o = .ok data ↔ o = .responds true (.parsed data) := by
  cases o with
  | rejects e => simp [handleResponse]
  | responds ok body =>
    cases ok with
    | true => cases body <;> simp [handleResponse]
    | false =>
      cases body with
      | rejects e => simp [handleResponse]
      | parsed v =>
        simp only [handleResponse]
        split
        · simp
        · split <;> simp

theorem translateAudio_of_ok (sourceLang targetLang : JSString) (blob : Blob)
    (o : FetchOutcome) (s : AppState) (data : JSON) (h : handleResponse o = .ok data) :
    translateAudio sourceLang targetLang blob o s =
      { translateAudioBegin sourceLang targetLang blob s with
        voiceResult := data
        voiceLoading := false
        voiceInFlight := (translateAudioBegin sourceLang targetLang blob s).voiceInFlight - 1 } := by
  simp only [translateAudio, translateAudioEnd, h]

theorem translateAudio_of_error (sourceLang targetLang : JSString) (blob : Blob)
    (o : FetchOutcome) (s : AppState) (e : JSError) (h : handleResponse o = .error e) :
    translateAudio sourceLang targetLang blob o s =
      { translateAudioBegin sourceLang targetLang blob s with
        voiceLoading := false
        voiceInFlight := (translateAudioBegin sourceLang targetLang blob s).voiceInFlight - 1
        log := (translateAudioBegin sourceLang targetLang blob s).log ++
          [.alert (js "Error: " ++ e.message)] } := by
  simp only [translateAudio, translateAudioEnd, h]

theorem translateVideo_of_ok (o : FetchOutcome) (s : AppState) (file : File) (data : JSON)
    (hfile : s.videoFile = some file) (h : handleResponse o = .ok data) :
    translateVideo o s =
      { translateVideoBegin s with
        videoResult := data
        videoLoading := false
        videoInFlight := (translateVideoBegin s).videoInFlight - 1 } := by
  simp only [translateVideo, translateVideoEnd, hfile, h]

theorem translateVideo_of_error (o : FetchOutcome) (s : AppState) (file : File) (e : JSError)
    (hfile : s.videoFile = some file) (h : handleResponse o = .error e) :
    translateVideo o s =
      { translateVideoBegin s with
        videoLoading := false
        videoInFlight := (translateVideoBegin s).videoInFlight - 1
        log := (translateVideoBegin s).log ++ [.alert (js "Error: " ++ e.message)] } := by
  simp only [translateVideo, translateVideoEnd, hfile, h]

theorem translateVideoBegin_of_file (s : AppState) (file : File)
    (hfile : s.videoFile = some file) :
    translateVideoBegin s =
      { s with
        videoLoading := true
        videoResult := .null
        videoInFlight := s.videoInFlight + 1
        log := s.log ++ [videoFetch s file] } := by
  simp only [translateVideoBegin, hfile]

/-- C3: on both channels, however the exchange of a submission settles (the
`fetch` rejects, the response is a success or not, its body parses or not),
the channel's in-flight flag is `false` when the submission returns. -/
theorem inflight_flag_cleared (sourceLang targetLang : JSString) (blob : Blob)
    (o : FetchOutcome) (s : AppState) :
    (translateAudio sourceLang targetLang blob o s).voiceLoading = false ∧
      ∀ file, s.videoFile = some file → (translateVideo o s).videoLoading = false := by
  constructor
  · cases h : handleResponse o with
    | ok data => rw [translateAudio_of_ok _ _ _ _ _ _ h]
    | error e => rw [translateAudio_of_error _ _ _ _ _ _ h]
  · intro file hfile
    cases h : handleResponse o with
    | ok data => rw [translateVideo_of_ok _ _ _ _ hfile h]
    | error e => rw [translateVideo_of_error _ _ _ _ hfile h]

/-- C3, witness: a network failure on both channels of `busyState`. -/
theorem inflight_flag_cleared_witness :
    (translateAudio (js "English") (js "Hindi") ⟨[1], js "audio/webm"⟩
        (.rejects ⟨.TypeError, js "Failed to fetch"⟩) busyState).voiceLoading = false ∧
      (translateVideo (.rejects ⟨.TypeError, js "Failed to fetch"⟩) busyState).videoLoading
        = false :=
  ⟨(inflight_flag_cleared (js "English") (js "Hindi") ⟨[1], js "audio/webm"⟩
      (.rejects ⟨.TypeError, js "Failed to fetch"⟩) busyState).1,
    (inflight_flag_cleared (js "English") (js "Hindi") ⟨[1], js "audio/webm"⟩
      (.rejects ⟨.TypeError, js "Failed to fetch"⟩) busyState).2 _ rfl⟩

/-- The voice handlers leave the video channel alone. -/
theorem step_video_fields (s : AppState) (e : Event)
    (h : ∀ o, e ≠ .videoSettles o) (h2 : e ≠ .videoClick) :
    (step s e).videoLoading = s.videoLoading ∧ (step s e).videoInFlight = s.videoInFlight := by
  cases e with
  | voiceClick =>
    simp only [step, voiceButtonClick, stopRecording, startRecordingBegin]
    split
    · exact ⟨rfl, rfl⟩
    · split
      · split
        · exact ⟨rfl, rfl⟩
        · exact ⟨rfl, rfl⟩
      · exact ⟨rfl, rfl⟩
  | micSettles i o =>
    simp only [step]
    split
    · cases o <;> exact ⟨rfl, rfl⟩
    · exact ⟨rfl, rfl⟩
  | dataAvailable data => exact ⟨rfl, rfl⟩
  | stopEvent i =>
    simp only [step]
    split <;> exact ⟨rfl, rfl⟩
  | voiceSettles i o =>
    simp only [step, onstopEnd, stopTracks, translateAudioEnd]
    split
    · split <;> exact ⟨rfl, rfl⟩
    · exact ⟨rfl, rfl⟩
  | videoUpload file =>
    simp only [step, handleVideoUpload]
    split <;> exact ⟨rfl, rfl⟩
  | videoClick => exact absurd rfl h2
  | videoSettles o => exact absurd rfl (h o)

theorem step_videoSingleFlight (s : AppState) (e : Event) (h : VideoSingleFlight s) :
    VideoSingleFlight (step s e) := by
  obtain ⟨hle, hiff⟩ := h
  by_cases hc : e = .videoClick
  · subst hc
    simp only [step, videoButtonClick]
    cases hfile : s.videoFile with
    | none => exact ⟨hle, hiff⟩
    | some file =>
      cases hl : s.videoLoading with
      | true =>
        simp only [if_true]
        exact ⟨hle, hiff⟩
      | false =>
        have h0 : s.videoInFlight = 0 := by
          have : ¬ s.videoInFlight = 1 := fun h1 => by
            have := hiff.2 h1
            rw [hl] at this
            cases this
          omega
        simp only [Bool.false_eq_true, if_false, translateVideoBegin_of_file s file hfile]
        refine ⟨?_, ?_⟩
        · show s.videoInFlight + 1 ≤ 1
          omega
        · show (true = true) ↔ s.videoInFlight + 1 = 1
          simp [h0]
  · by_cases hs : ∃ o, e = .videoSettles o
    · obtain ⟨o, rfl⟩ := hs
      simp only [step]
      split
      · exact ⟨hle, hiff⟩
      · rename_i hne
        have h1 : s.videoInFlight = 1 := by omega
        simp only [translateVideoEnd]
        cases handleResponse o with
        | ok data =>
          refine ⟨?_, ?_⟩
          · show s.videoInFlight - 1 ≤ 1
            omega
          · show (false = true) ↔ s.videoInFlight - 1 = 1
            simp [h1]
        | error err =>
          refine ⟨?_, ?_⟩
          · show s.videoInFlight - 1 ≤ 1
            omega
          · show (false = true) ↔ s.videoInFlight - 1 = 1
            simp [h1]
    · have hs' : ∀ o, e ≠ .videoSettles o := fun o ho => hs ⟨o, ho⟩
      obtain ⟨e1, e2⟩ := step_video_fields s e hs' hc
      unfold VideoSingleFlight
      rw [e1, e2]
      exact ⟨hle, hiff⟩

theorem run_videoSingleFlight (events : List Event) (s : AppState)
    (h : VideoSingleFlight s) : VideoSingleFlight (run events s) := by
  induction events generalizing s with
  | nil => exact h
  | cons e es ih => exact ih (step s e) (step_videoSingleFlight s e h)

/-- C4, counterexample: `translateAudio` and `translateVideo` invoked while
their channel's flag is `true` are not rejected: each issues one more
exchange, so that two are outstanding.  On the voice channel the same is
reached from the initial state by clicks and browser events alone, when the
stop events of two recordings are delivered one after the other. -/
theorem submit_while_inflight_fetches :
    (translateAudioBegin (js "English") (js "Hindi") ⟨[1], js "audio/webm"⟩
        AppState.initial).voiceLoading = true ∧
      (translateAudioBegin (js "English") (js "Hindi") ⟨[2], js "audio/webm"⟩
        (translateAudioBegin (js "English") (js "Hindi") ⟨[1], js "audio/webm"⟩
          AppState.initial)).log =
        [audioFetch (js "English") (js "Hindi") ⟨[1], js "audio/webm"⟩,
          audioFetch (js "English") (js "Hindi") ⟨[2], js "audio/webm"⟩] ∧
      (translateAudioBegin (js "English") (js "Hindi") ⟨[2], js "audio/webm"⟩
        (translateAudioBegin (js "English") (js "Hindi") ⟨[1], js "audio/webm"⟩
          AppState.initial)).voiceInFlight = 2 ∧
      (translateVideoBegin fileSelectedState).videoLoading = true ∧
      (translateVideoBegin (translateVideoBegin fileSelectedState)).videoInFlight = 2 ∧
      (run twoStopsRun AppState.initial).voiceInFlight = 2 ∧
      (run twoStopsRun AppState.initial).log =
        [.getUserMedia, .recorderStart 1, .recorderStop 1,
          .getUserMedia, .recorderStart 2, .recorderStop 2,
          audioFetch (js "English") (js "Hindi") ⟨[], js "audio/webm"⟩,
          audioFetch (js "English") (js "Hindi") ⟨[], js "audio/webm"⟩] :=
  ⟨rfl, rfl, rfl, rfl, rfl, rfl, rfl⟩

/-- C4, amended: the submit functions carry no in-flight guard: whatever the
flag, `translateAudio` and, with a file selected, `translateVideo` set the
channel's flag and issue one more exchange.  The guard is the channel's
button, disabled while the flag is `true`: a click on it then changes
nothing.  For the video channel, whose only call site is its button, this
gives single-flight: in every state reached from the initial one by any
sequence of clicks, file selections and browser events, at most one video
exchange is outstanding, and `videoLoading` is `true` exactly when one is. -/
theorem single_flight_by_button (events : List Event) (s : AppState) :
    ((run events AppState.initial).videoInFlight ≤ 1 ∧
        ((run events AppState.initial).videoLoading = true ↔
          (run events AppState.initial).videoInFlight = 1)) ∧
      (s.voiceLoading = true → voiceButtonClick s = s) ∧
      (s.videoLoading = true → videoButtonClick s = s) ∧
      (∀ sourceLang targetLang blob,
        (translateAudioBegin sourceLang targetLang blob s).voiceLoading = true ∧
          (translateAudioBegin sourceLang targetLang blob s).voiceInFlight =
            s.voiceInFlight + 1 ∧
          (translateAudioBegin sourceLang targetLang blob s).log =
            s.log ++ [audioFetch sourceLang targetLang blob]) ∧
      (∀ file, s.videoFile = some file →
        (translateVideoBegin s).videoLoading = true ∧
          (translateVideoBegin s).videoInFlight = s.videoInFlight + 1 ∧
          (translateVideoBegin s).log = s.log ++ [videoFetch s file]) := by
  refine ⟨?_, ?_, ?_, ?_, ?_⟩
  · have h0 : VideoSingleFlight AppState.initial := by
      refine ⟨?_, ?_⟩
      · show (0 : Nat) ≤ 1
        omega
      · show (false = true) ↔ (0 : Nat) = 1
        simp
    exact run_videoSingleFlight events AppState.initial h0
  · intro h
    simp [voiceButtonClick, h]
  · intro h
    unfold videoButtonClick
    cases s.videoFile <;> simp [h]
  · intro sourceLang targetLang blob
    exact ⟨rfl, rfl, rfl⟩
  · intro file hfile
    rw [translateVideoBegin_of_file s file hfile]
    exact ⟨rfl, rfl, rfl⟩

/-- C4, witness: a file is selected, the video button is clicked twice and
the exchange settles; and clicks on the two buttons of `busyState`. -/
theorem single_flight_by_button_witness :
    ((run [.videoUpload (some ⟨js "clip.mp4", ⟨[0, 1], js "video/mp4"⟩⟩), .videoClick,
          .videoClick] AppState.initial).videoInFlight ≤ 1 ∧
        ((run [.videoUpload (some ⟨js "clip.mp4", ⟨[0, 1], js "video/mp4"⟩⟩), .videoClick,
            .videoClick] AppState.initial).videoLoading = true ↔
          (run [.videoUpload (some ⟨js "clip.mp4", ⟨[0, 1], js "video/mp4"⟩⟩), .videoClick,
            .videoClick] AppState.initial).videoInFlight = 1)) ∧
      voiceButtonClick busyState = busyState ∧
      videoButtonClick busyState = busyState :=
  ⟨(single_flight_by_button
      [.videoUpload (some ⟨js "clip.mp4", ⟨[0, 1], js "video/mp4"⟩⟩), .videoClick, .videoClick]
      busyState).1,
    (single_flight_by_button [] busyState).2.1 rfl,
    (single_flight_by_button [] busyState).2.2.1 rfl⟩

theorem translateAudio_error_facts (sourceLang targetLang : JSString) (blob : Blob)
    (o : FetchOutcome) (s : AppState) (e : JSError) (h : handleResponse o = .error e) :
    (translateAudio sourceLang targetLang blob o s).log =
        s.log ++ [audioFetch sourceLang targetLang blob, .alert (js "Error: " ++ e.message)] ∧
      (translateAudio sourceLang targetLang blob o s).voiceResult = .null := by
  rw [translateAudio_of_error _ _ _ _ _ _ h]
  simp [translateAudioBegin, audioFetch]

theorem translateVideo_error_facts (o : FetchOutcome) (s : AppState) (file : File)
    (e : JSError) (hfile : s.videoFile = some file) (h : handleResponse o = .error e) :
    (translateVideo o s).log =
        s.log ++ [videoFetch s file, .alert (js "Error: " ++ e.message)] ∧
      (translateVideo o s).videoResult = .null := by
  rw [translateVideo_of_error _ _ _ _ hfile h, translateVideoBegin_of_file s file hfile]
  simp [videoFetch]

theorem translateAudio_ok_facts (sourceLang targetLang : JSString) (blob : Blob)
    (o : FetchOutcome) (s : AppState) (data : JSON) (h : handleResponse o = .ok data) :
    (translateAudio sourceLang targetLang blob o s).log =
        s.log ++ [audioFetch sourceLang targetLang blob] ∧
      (translateAudio sourceLang targetLang blob o s).voiceResult = data := by
  rw [translateAudio_of_ok _ _ _ _ _ _ h]
  simp [translateAudioBegin, audioFetch]

theorem translateVideo_ok_facts (o : FetchOutcome) (s : AppState) (file : File)
    (data : JSON) (hfile : s.videoFile = some file) (h : handleResponse o = .ok data) :
    (translateVideo o s).log = s.log ++ [videoFetch s file] ∧
      (translateVideo o s).videoResult = data := by
  rw [translateVideo_of_ok _ _ _ _ hfile h, translateVideoBegin_of_file s file hfile]
  simp [videoFetch]

theorem handleResponse_nonSuccess (body : BodyOutcome) :
    handleResponse (.responds false body) = .error (nonSuccessError body) := by
  unfold nonSuccessError
  cases body with
  | rejects e => simp [handleResponse]
  | parsed v =>
    simp only [handleResponse]
    split
    · rfl
    · split <;> rfl

/-- C5, counterexample: on a non-success response whose body cannot be
parsed, the reported message is the message of the parse error and not the
generic `Translation failed`; and for the body `{"detail": ""}` the reported
message is `Translation failed`, not the empty `detail`. -/
theorem unparseable_body_reports_parse_error :
    (translateAudio (js "English") (js "Hindi") ⟨[1], js "audio/webm"⟩
        (.responds false emptyBody) AppState.initial).log =
        [audioFetch (js "English") (js "Hindi") ⟨[1], js "audio/webm"⟩,
          .alert (js "Error: Unexpected end of JSON input")] ∧
      js "Error: Unexpected end of JSON input" ≠ js "Error: Translation failed" ∧
      (translateAudio (js "English") (js "Hindi") ⟨[1], js "audio/webm"⟩
        (.responds false emptyDetailBody) AppState.initial).log =
        [audioFetch (js "English") (js "Hindi") ⟨[1], js "audio/webm"⟩,
          .alert (js "Error: Translation failed")] :=
  ⟨rfl, by decide, rfl⟩

/-- C5, amended: for every non-success response on either channel one message
`m` is reported (the alert `Error: m`) and the channel's result is `null`
afterwards, where `m` is `d` if the body parses as an object whose `detail`
is the non-empty string `d`; the generic `Translation failed` if the body
parses to a value other than `null` with no truthy `detail`; and the message
of the rejection of `response.json()` if the body cannot be parsed. -/
theorem server_error_report (sourceLang targetLang : JSString) (blob : Blob)
    (body : BodyOutcome) (s : AppState) :
    ∃ m : JSString,
      ((translateAudio sourceLang targetLang blob (.responds false body) s).log =
          s.log ++ [audioFetch sourceLang targetLang blob, .alert (js "Error: " ++ m)] ∧
        (translateAudio sourceLang targetLang blob (.responds false body) s).voiceResult
          = .null) ∧
      (∀ file, s.videoFile = some file →
        (translateVideo (.responds false body) s).log =
          s.log ++ [videoFetch s file, .alert (js "Error: " ++ m)] ∧
        (translateVideo (.responds false body) s).videoResult = .null) ∧
      (∀ props d, body = .parsed (.obj props) → props.get (js "detail") = some (.str d) →
        d ≠ [] → m = d) ∧
      (∀ v, body = .parsed v → v ≠ .null →
        (∀ props, v = .obj props → truthy? (props.get (js "detail")) = false) →
        m = js "Translation failed") ∧
      (∀ e, body = .rejects e → m = e.message) := by
  refine ⟨(nonSuccessError body).message,
    translateAudio_error_facts _ _ _ _ _ _ (handleResponse_nonSuccess body),
    fun file hfile => translateVideo_error_facts _ _ _ _ hfile (handleResponse_nonSuccess body),
    ?_, ?_, ?_⟩
  · rintro props d rfl hd hne
    cases d with
    | nil => exact absurd rfl hne
    | cons c cs =>
      simp [nonSuccessError, handleResponse, JSON.getProp, hd, errorMessageOf, JSON.truthy,
        JSON.toJSString]
  · rintro v rfl hv hprops
    cases v with
    | null => exact absurd rfl hv
    | obj props =>
      have h := hprops props rfl
      simp only [nonSuccessError, handleResponse, JSON.getProp, errorMessageOf]
      cases hg : props.get (js "detail") with
      | none => rfl
      | some d =>
        rw [hg] at h
        simp only [truthy?] at h
        simp [h]
    | bool b => rfl
    | num nz t => rfl
    | str t => rfl
    | arr items => rfl
  · rintro e rfl
    rfl

/-- C5, witness: a response with status 500 and the body
`{"detail": "unsupported language"}` on the voice channel. -/
theorem server_error_report_witness :
    (translateAudio (js "English") (js "Hindi") ⟨[1], js "audio/webm"⟩
        (.responds false unsupportedLanguageBody) AppState.initial).log =
        [audioFetch (js "English") (js "Hindi") ⟨[1], js "audio/webm"⟩,
          .alert (js "Error: " ++ js "unsupported language")] ∧
      (translateAudio (js "English") (js "Hindi") ⟨[1], js "audio/webm"⟩
        (.responds false unsupportedLanguageBody) AppState.initial).voiceResult = .null := by
  obtain ⟨m, h1, -, h3, -, -⟩ :=
    server_error_report (js "English") (js "Hindi") ⟨[1], js "audio/webm"⟩
      unsupportedLanguageBody AppState.initial
  have hm : m = js "unsupported language" := h3 _ _ rfl rfl (by decide)
  subst hm
  exact h1

/-- C6, counterexample: a success response whose body is the JSON text `null`
completes the submission with a `null` result and no reported error. -/
theorem null_body_neither_result_nor_error :
    (translateAudio (js "English") (js "Hindi") ⟨[1], js "audio/webm"⟩
        (.responds true (.parsed .null)) AppState.initial).voiceResult = .null ∧
      (translateAudio (js "English") (js "Hindi") ⟨[1], js "audio/webm"⟩
        (.responds true (.parsed .null)) AppState.initial).log =
        [audioFetch (js "English") (js "Hindi") ⟨[1], js "audio/webm"⟩] :=
  ⟨rfl, rfl⟩

/-- C6, amended: after a completed submission on either channel whose exchange
did not settle as a success response with the body `null`, exactly one of the
two outcomes holds: the exchange was a success response and the result is its
parsed body, which is not `null`, and no error was reported; or the exchange
was anything else, one error was reported (an alert `Error: ...`) and the
result is `null`, whatever it was before the submission. -/
theorem result_error_exclusive (sourceLang targetLang : JSString) (blob : Blob)
    (o : FetchOutcome) (s : AppState) (hnull : o ≠ .responds true (.parsed .null)) :
    ((∃ data, o = .responds true (.parsed data) ∧ data ≠ .null ∧
          (translateAudio sourceLang targetLang blob o s).voiceResult = data ∧
          (translateAudio sourceLang targetLang blob o s).log =
            s.log ++ [audioFetch sourceLang targetLang blob]) ∨
        ((∀ data, o ≠ .responds true (.parsed data)) ∧
          (translateAudio sourceLang targetLang blob o s).voiceResult = .null ∧
          ∃ m, (translateAudio sourceLang targetLang blob o s).log =
            s.log ++ [audioFetch sourceLang targetLang blob, .alert (js "Error: " ++ m)])) ∧
      (∀ file, s.videoFile = some file →
        ((∃ data, o = .responds true (.parsed data) ∧ data ≠ .null ∧
            (translateVideo o s).videoResult = data ∧
            (translateVideo o s).log = s.log ++ [videoFetch s file]) ∨
          ((∀ data, o ≠ .responds true (.parsed data)) ∧
            (translateVideo o s).videoResult = .null ∧
            ∃ m, (translateVideo o s).log =
              s.log ++ [videoFetch s file, .alert (js "Error: " ++ m)]))) := by
  cases h : handleResponse o with
  | ok data =>
    have ho : o = .responds true (.parsed data) := (handleResponse_ok_iff o data).1 h
    have hdata : data ≠ .null := by
      rintro rfl
      exact hnull ho
    refine ⟨Or.inl ?_, fun file hfile => Or.inl ?_⟩
    · obtain ⟨h1, h2⟩ := translateAudio_ok_facts sourceLang targetLang blob o s data h
      exact ⟨data, ho, hdata, h2, h1⟩
    · obtain ⟨h1, h2⟩ := translateVideo_ok_facts o s file data hfile h
      exact ⟨data, ho, hdata, h2, h1⟩
  | error e =>
    have hno : ∀ data, o ≠ .responds true (.parsed data) := by
      intro data hd
      have := (handleResponse_ok_iff o data).2 hd
      rw [h] at this
      cases this
    refine ⟨Or.inr ?_, fun file hfile => Or.inr ?_⟩
    · obtain ⟨h1, h2⟩ := translateAudio_error_facts sourceLang targetLang blob o s e h
      exact ⟨hno, h2, _, h1⟩
    · obtain ⟨h1, h2⟩ := translateVideo_error_facts o s file e hfile h
      exact ⟨hno, h2, _, h1⟩

/-- C6, witness: a success response with the body of the end-to-end scenario
in a state that holds an earlier result. -/
theorem result_error_exclusive_witness :
    (∃ data, FetchOutcome.responds true (.parsed (.obj helloProps)) =
          .responds true (.parsed data) ∧ data ≠ .null ∧
        (translateAudio (js "English") (js "Hindi") ⟨[1], js "audio/webm"⟩
          (.responds true (.parsed (.obj helloProps))) staleResultState).voiceResult = data ∧
        (translateAudio (js "English") (js "Hindi") ⟨[1], js "audio/webm"⟩
          (.responds true (.parsed (.obj helloProps))) staleResultState).log =
          staleResultState.log ++
            [audioFetch (js "English") (js "Hindi") ⟨[1], js "audio/webm"⟩]) ∨
      ((∀ data, FetchOutcome.responds true (.parsed (.obj helloProps)) ≠
          .responds true (.parsed data)) ∧
        (translateAudio (js "English") (js "Hindi") ⟨[1], js "audio/webm"⟩
          (.responds true (.parsed (.obj helloProps))) staleResultState).voiceResult = .null ∧
        ∃ m, (translateAudio (js "English") (js "Hindi") ⟨[1], js "audio/webm"⟩
          (.responds true (.parsed (.obj helloProps))) staleResultState).log =
          staleResultState.log ++
            [audioFetch (js "English") (js "Hindi") ⟨[1], js "audio/webm"⟩,
              .alert (js "Error: " ++ m)]) :=
  (result_error_exclusive (js "English") (js "Hindi") ⟨[1], js "audio/webm"⟩
    (.responds true (.parsed (.obj helloProps))) staleResultState (by simp)).1

/-! ## Claims about the result panel -/

/-- C7, counterexample: for a result with both text fields whose
`audio_base64` is a line feed, or the number 5, `hexToBase64` throws and the
render of the panel fails as a whole: no text field is rendered. -/
theorem render_fails_on_decoding_error :
    renderResult lineFeedPayloadResult = .error ⟨.TypeError, nullMapMessage⟩ ∧
      renderResult numberPayloadResult =
        .error ⟨.TypeError, js "hex.match is not a function"⟩ :=
  ⟨rfl, rfl⟩

theorem hexToBase64Value_error_iff (hex : JSON) :
    (∃ e, hexToBase64Value hex = .error e) ↔
      ∀ str, hex = .str str → ∀ c ∈ str, isLineTerminator c = true := by
  cases hex with
  | str t =>
    simp only [hexToBase64Value, hexToBase64_error_iff, JSON.str.injEq]
    constructor
    · rintro h str rfl
      exact h
    · intro h
      exact h t rfl
  | null => simp [hexToBase64Value]
  | bool b => simp [hexToBase64Value]
  | num nz t => simp [hexToBase64Value]
  | arr items => simp [hexToBase64Value]
  | obj props => simp [hexToBase64Value]

theorem renderChild_of_falsy (v : Option JSON) (h : truthy? v = false) :
    renderChild? v = .ok (falsyNodes v) := by
  cases v with
  | none => rfl
  | some x =>
    cases x with
    | null => rfl
    | bool b => rfl
    | num nz t => rfl
    | str t =>
      have ht : t.isEmpty = true := by simpa [truthy?, JSON.truthy] using h
      simp [renderChild?, JSON.renderChild, falsyNodes, ht]
    | arr items => simp [truthy?, JSON.truthy] at h
    | obj props => simp [truthy?, JSON.truthy] at h

/-- C7, amended: for a result object whose `original_text` and
`translated_text` are strings, the panel is rendered with both texts when
`audio_base64` is absent or falsy (without audio element) and when
`hexToBase64` succeeds on it (with the data URL as `src`); a failure of
`hexToBase64` is not isolated: the render of the panel then fails as a whole
with that error.  On a truthy payload `hexToBase64` fails exactly when the
payload is not a string or is a string of line terminators only. -/
theorem render_result_audio (props : JSONProps) (original translated : JSString)
    (horiginal : props.get (js "original_text") = some (.str original))
    (htranslated : props.get (js "translated_text") = some (.str translated)) :
    (truthy? (props.get (js "audio_base64")) = false →
        renderResult (.obj props) =
          .ok (.panel ⟨textNodes original, textNodes translated,
            .text (falsyNodes (props.get (js "audio_base64")))⟩)) ∧
      (∀ hex, props.get (js "audio_base64") = some hex → hex.truthy = true →
        (∀ b64, hexToBase64Value hex = .ok b64 →
          renderResult (.obj props) =
            .ok (.panel ⟨textNodes original, textNodes translated,
              .element (js "data:audio/mp3;base64," ++ b64)⟩)) ∧
        (∀ e, hexToBase64Value hex = .error e → renderResult (.obj props) = .error e) ∧
        ((∃ e, hexToBase64Value hex = .error e) ↔
          ∀ str, hex = .str str → ∀ c ∈ str, isLineTerminator c = true)) := by
  have ho : renderChild? (some (.str original)) = .ok (textNodes original) := rfl
  have ht : renderChild? (some (.str translated)) = .ok (textNodes translated) := rfl
  have hobj : (JSON.obj props).truthy = true := rfl
  refine ⟨?_, ?_⟩
  · intro h
    have hev : evalAudioPart (props.get (js "audio_base64")) = .ok none := by
      unfold evalAudioPart
      cases hg : props.get (js "audio_base64") with
      | none => rfl
      | some hex =>
        rw [hg] at h
        have : hex.truthy = false := h
        simp [this]
    simp only [renderResult, hobj, JSON.getProp, horiginal, htranslated, hev, ho, ht,
      renderChild_of_falsy _ h, if_true]
  · intro hex hget htruthy
    refine ⟨?_, ?_, hexToBase64Value_error_iff hex⟩
    · intro b64 hb
      have hev : evalAudioPart (some hex) =
          .ok (some (js "data:audio/mp3;base64," ++ b64)) := by
        simp only [evalAudioPart, htruthy, hb, if_true]
      simp only [renderResult, hobj, JSON.getProp, horiginal, htranslated, hget, hev, ho, ht,
        if_true]
    · intro e he
      have hev : evalAudioPart (some hex) = .error e := by
        simp only [evalAudioPart, htruthy, he, if_true]
      simp only [renderResult, hobj, JSON.getProp, horiginal, htranslated, hget, hev, if_true]

/-- C7, witness: the panel of the result with the properties `helloProps`. -/
theorem render_result_audio_witness :
    renderResult (.obj helloProps) =
      .ok (.panel ⟨[js "Hello"], [js "नमस्ते"],
        .element (js "data:audio/mp3;base64," ++ js "SGVsbG8=")⟩) :=
  ((render_result_audio helloProps (js "Hello") (js "नमस्ते") rfl rfl).2
    (.str (js "48656c6c6f")) rfl rfl).1 (js "SGVsbG8=") rfl

/-! ## Claims about the recording lifecycle -/

/-- C9, counterexample: when the stop event of `recordingState` is handled,
the request is issued while no track has been stopped, and the track is
stopped only after the submission has returned. -/
theorem tracks_released_after_submission :
    (onstopBegin recorder1 (stopRecording recordingState)).log =
        [.getUserMedia, .recorderStart 1, .recorderStop 1,
          audioFetch (js "English") (js "Hindi") ⟨[1, 2], js "audio/webm"⟩] ∧
      (onstopBegin recorder1 (stopRecording recordingState)).voiceLoading = true ∧
      (onstop recorder1 (.responds true (.parsed (.obj helloProps)))
          (stopRecording recordingState)).log =
        [.getUserMedia, .recorderStart 1, .recorderStop 1,
          audioFetch (js "English") (js "Hindi") ⟨[1, 2], js "audio/webm"⟩,
          .trackStop 1 10] :=
  ⟨rfl, rfl, rfl⟩

/-- C9, amended: the `onstop` handler concatenates the accumulated fragments
into one blob and hands it to `translateAudio`, which issues the request
first; the tracks of the capture stream are stopped after that submission has
returned (its flag cleared, at most one alert shown), on every outcome of the
exchange.  The stream is thus held while the exchange is in flight. -/
theorem release_after_submission (recorder : MediaRecorder) (o : FetchOutcome)
    (s : AppState) :
    (onstopBegin recorder s).log =
        s.log ++ [audioFetch recorder.sourceLang recorder.targetLang
          ⟨s.audioChunksRef.flatten, js "audio/webm"⟩] ∧
      (onstopBegin recorder s).voiceLoading = true ∧
      (onstop recorder o s).voiceLoading = false ∧
      ∃ alerts, (alerts = [] ∨ ∃ m, alerts = [Effect.alert m]) ∧
        (onstop recorder o s).log =
          (onstopBegin recorder s).log ++ alerts ++
            recorder.stream.tracks.map (Effect.trackStop recorder.stream.id) := by
  refine ⟨rfl, rfl, ?_, ?_⟩
  · simp only [onstop, onstopEnd, stopTracks, translateAudioEnd]
    cases handleResponse o <;> rfl
  · cases h : handleResponse o with
    | ok data =>
      refine ⟨[], Or.inl rfl, ?_⟩
      simp only [onstop, onstopEnd, stopTracks, translateAudioEnd, h, List.append_nil]
    | error e =>
      refine ⟨[.alert (js "Error: " ++ e.message)], Or.inr ⟨_, rfl⟩, ?_⟩
      simp only [onstop, onstopEnd, stopTracks, translateAudioEnd, h]


/-- C8, counterexample: `startRecording` invoked when the controller is not
Idle is not a no-op.  Called while recording it requests the microphone
again.  And between `stopRecording` and the stop event the voice button
itself calls it: the microphone is requested, and once granted the recorder
is replaced and the fragments of the recording being finalized are
discarded. -/
theorem startRecording_outside_idle :
    recordingState.isRecording = true ∧
      (startRecordingBegin recordingState).log = recordingState.log ++ [.getUserMedia] ∧
      finalizingState.isRecording = false ∧
      finalizingState.stopPending = [recorder1] ∧
      finalizingState.mediaRecorderRef = some recorder1 ∧
      finalizingState.audioChunksRef = [[1, 2]] ∧
      step finalizingState .voiceClick = startRecordingBegin finalizingState ∧
      (run [.voiceClick, .micSettles 0 (.started ⟨2, [20]⟩)] finalizingState).mediaRecorderRef =
        some ⟨⟨2, [20]⟩, js "English", js "Hindi", true⟩ ∧
      (run [.voiceClick, .micSettles 0 (.started ⟨2, [20]⟩)] finalizingState).audioChunksRef
        = [] ∧
      (run [.voiceClick, .micSettles 0 (.started ⟨2, [20]⟩)] finalizingState).log =
        finalizingState.log ++ [.getUserMedia, .recorderStart 2] :=
  ⟨rfl, rfl, rfl, rfl, rfl, rfl, rfl, rfl, rfl, rfl⟩

/-- C8, amended: `stopRecording` invoked when there is no recorder or
`isRecording` is `false` leaves the whole state unchanged (recording state,
recorder, fragments, submission state, nothing due, no effect).
`startRecording` tests nothing: in every state a call requests the
microphone, and a granted one installs a new recorder, empties the fragments
and sets `isRecording`.  The voice button calls `stopRecording`, not
`startRecording`, when `isRecording` is `true`, and does nothing when
`voiceLoading` is `true`. -/
theorem recording_guards (s : AppState) :
    ((s.mediaRecorderRef = none ∨ s.isRecording = false) → stopRecording s = s) ∧
      (s.isRecording = true →
        voiceButtonClick s = if s.voiceLoading then s else stopRecording s) ∧
      (s.voiceLoading = true → voiceButtonClick s = s) ∧
      ((startRecordingBegin s).log = s.log ++ [.getUserMedia] ∧
        (startRecordingBegin s).micPending =
          s.micPending ++ [⟨s.voiceSourceLang, s.voiceTargetLang⟩]) ∧
      (∀ c stream,
        (startRecordingResume c (.started stream) s).log =
            s.log ++ [.recorderStart stream.id] ∧
          (startRecordingResume c (.started stream) s).mediaRecorderRef =
            some (newRecorder c stream true) ∧
          (startRecordingResume c (.started stream) s).audioChunksRef = [] ∧
          (startRecordingResume c (.started stream) s).isRecording = true) := by
  refine ⟨?_, ?_, ?_, ⟨rfl, rfl⟩, fun c stream => ⟨rfl, rfl, rfl, rfl⟩⟩
  · intro h
    unfold stopRecording
    rcases h with h | h
    · rw [h]
    · cases s.mediaRecorderRef <;> simp [h]
  · intro h
    simp [voiceButtonClick, h]
  · intro h
    simp [voiceButtonClick, h]

/-- C8, witness: `stopRecording` before any `startRecording`, and a click on
the voice button while recording. -/
theorem recording_guards_witness :
    stopRecording AppState.initial = AppState.initial ∧
      voiceButtonClick recordingState =
        (if recordingState.voiceLoading then recordingState else stopRecording recordingState) :=
  ⟨(recording_guards AppState.initial).1 (Or.inl rfl), (recording_guards recordingState).2.1 rfl⟩

/-- C10, failing input: the voice button is clicked twice before
`getUserMedia` answers, both requests are granted (streams 1 and 2), then the
recording is stopped and its submission completes.  Both starts succeeded,
the one stop triggered one submission and released the track of stream 2,
nothing is left suspended or due, and the track of stream 1 was never
stopped. -/
theorem double_start_leaks_stream :
    (run doubleStartRun AppState.initial).log =
        [.getUserMedia, .getUserMedia, .recorderStart 1, .recorderStart 2, .recorderStop 2,
          audioFetch (js "English") (js "Hindi") ⟨[1, 2], js "audio/webm"⟩,
          .trackStop 2 20] ∧
      (run doubleStartRun AppState.initial).log.count (.trackStop 1 10) = 0 ∧
      (run doubleStartRun AppState.initial).log.count (.trackStop 2 20) = 1 ∧
      (run doubleStartRun AppState.initial).micPending = [] ∧
      (run doubleStartRun AppState.initial).stopPending = [] ∧
      (run doubleStartRun AppState.initial).onstopWaiting = [] ∧
      (run doubleStartRun AppState.initial).voiceInFlight = 0 ∧
      (run doubleStartRun AppState.initial).isRecording = false ∧
      (run doubleStartRun AppState.initial).voiceLoading = false := by
  refine ⟨rfl, ?_, ?_, rfl, rfl, rfl, rfl, rfl, rfl⟩
  · have h : (run doubleStartRun AppState.initial).log =
        [.getUserMedia, .getUserMedia, .recorderStart 1, .recorderStart 2, .recorderStop 2,
          audioFetch (js "English") (js "Hindi") ⟨[1, 2], js "audio/webm"⟩,
          .trackStop 2 20] := rfl
    rw [h]
    decide
  · have h : (run doubleStartRun AppState.initial).log =
        [.getUserMedia, .getUserMedia, .recorderStart 1, .recorderStart 2, .recorderStop 2,
          audioFetch (js "English") (js "Hindi") ⟨[1, 2], js "audio/webm"⟩,
          .trackStop 2 20] := rfl
    rw [h]
    decide

end Subhashini
